import Mathlib

/-!
Verification development for the fractional-cover virtual product
(src/fc/virtualproduct.py).

The embedding models:
  * xarray attribute dictionaries as association lists from strings to
    attribute values (numbers or strings);
  * a DataArray as its cell contents (a time-indexed list of y-rows of
    x-cells of rational numbers) together with its attribute dictionary;
  * python exceptions as an explicit error type threaded through Except;
  * numpy float arithmetic as exact rational arithmetic, and the
    astype narrowing cast as truncation toward zero followed by
    wrap-around into the signed target width.

A second, heap-explicit embedding of the normalizer is given further
down to express the frame property (the input band is not mutated);
it renders buffer and dictionary identity visible.
-/

set_option autoImplicit false

namespace FCModel

/-- Values stored in attribute dictionaries: the repository only ever keeps
numbers (nodata sentinels) and strings (the crs) in them. -/
inductive AttrVal where
  | num (q : ℚ)
  | str (s : String)
deriving DecidableEq

/-- An xarray attribute dictionary, in insertion order. -/
abbrev Dict := List (String × AttrVal)

/-- Python dict assignment d[k] = v: replace the first binding of k if present,
otherwise append the new binding at the end. -/
def setKey : Dict → String → AttrVal → Dict
  | [], k, v => [(k, v)]
  | (k', v') :: rest, k, v =>
      if k' = k then (k, v) :: rest else (k', v') :: setKey rest k v

/-- Python exception classes relevant to the embedded code paths.
ConfigurationError appears only because the specification names it; the
source module never raises or imports it. -/
inductive PyErr where
  | keyError
  | valueError
  | attributeError
  | configurationError
deriving DecidableEq

/-- Truncation toward zero, as numpy does when casting a float to an
integer dtype. -/
def ratTrunc (q : ℚ) : ℤ := if 0 ≤ q then ⌊q⌋ else ⌈q⌉

/-- Wrap an integer into the value range of a signed w-bit integer. -/
def wrapSigned (w : ℕ) (n : ℤ) : ℤ := (n + 2 ^ (w - 1)) % 2 ^ w - 2 ^ (w - 1)

/-- The numpy astype cast to a named integer dtype.  Only the two integer
dtypes that occur in the source module, int16 and int8, are interpreted.
On other dtype strings numpy's astype would raise a TypeError; that path
is not modelled (the fallback is the identity), so no theorem may
quantify over arbitrary dtype strings — statements fix the dtype to the
ones the module passes. -/
def castDtype (dtype : String) (q : ℚ) : ℚ :=
  if dtype = "int16" then ((wrapSigned 16 (ratTrunc q) : ℤ) : ℚ)
  else if dtype = "int8" then ((wrapSigned 8 (ratTrunc q) : ℤ) : ℚ)
  else q

/-- One time layer of a band: y-rows of x-cells. -/
abbrev Grid := List (List ℚ)

/-- The cell contents of a band: time layers of grids. -/
abbrev Cells := List Grid

/-- Map a function over every cell of a three-level nested list. -/
def map3 {α β : Type} (f : α → β) (c : List (List (List α))) :
    List (List (List β)) :=
  c.map (fun g => g.map (fun r => r.map f))

/-- Zip two three-level nested lists cellwise. -/
def zip3With {α β γ : Type} (f : α → β → γ) (a : List (List (List α)))
    (b : List (List (List β))) : List (List (List γ)) :=
  List.zipWith (fun ga gb => List.zipWith (fun ra rb => List.zipWith f ra rb) ga gb) a b

/-- Look up the cell at time t, row y, column x. -/
def cellAt {α : Type} (c : List (List (List α))) (t y x : ℕ) : Option α :=
  (getElem? c t).bind fun g => (getElem? g y).bind fun r => getElem? r x

/-- A DataArray: its cells plus its attribute dictionary. -/
structure BandV where
  data : Cells
  attrs : Dict
deriving DecidableEq

/-- Embedding of scale_and_clip_dataarray (src/fc/virtualproduct.py,
lines 107-126).  Points of the translation a reader should check against
the source:
  * line 110 reads dataarray.attrs with a plain dict subscript, so a band
    without a nodata attribute raises KeyError;
  * line 112 computes the mask on the raw values, before any arithmetic;
  * line 118 calls dataarray.clip(clip_min, clip_max) but never assigns
    the result; DataArray.clip is not in-place, so the clipped array is
    discarded and the subsequent cast works on the unclipped values.  The
    discarded value is kept here as the unused binding named clipDiscarded;
  * line 120 casts with astype, truncating toward zero;
  * line 122 overwrites the masked cells of the freshly cast array, the
    written sentinel itself passing through the dtype of that array;
  * lines 123-124 restore the original attributes and then update only
    the nodata field. -/
def scale_and_clip_dataarray (dataarray : BandV) (scale_factor add_offset : ℚ)
    (clip_range : Option (ℚ × ℚ)) (new_nodata : ℚ) (new_dtype : String) :
    Except PyErr BandV :=
  let orig_attrs := dataarray.attrs
  match List.lookup "nodata" orig_attrs with
  | none => .error .keyError
  | some nodataVal =>
    let mask := map3 (fun v => decide (AttrVal.num v = nodataVal)) dataarray.data
    let scaled := map3 (fun v => v * scale_factor + add_offset) dataarray.data
    let _clipDiscarded :=
      match clip_range with
      | some (lo, hi) => map3 (fun v => max lo (min v hi)) scaled
      | none => scaled
    let casted := map3 (castDtype new_dtype) scaled
    let filled :=
      zip3With (fun m v => if m then castDtype new_dtype new_nodata else v) mask casted
    .ok ⟨filled, setKey orig_attrs "nodata" (AttrVal.num new_nodata)⟩

/-- Modelled from the spec: the normalize contract of section 4.1, steps 1-6
exactly as the spec words them (mask on the raw sentinel, affine transform,
clip applied when a range is given, cast to the target width, overwrite the
masked cells with the new sentinel, update only the nodata field), with the
missing-nodata failure reported as a ConfigurationError as section 7 states.
This definition exists to be compared with the source embedding above. -/
def normalize_spec (band : BandV) (scale_factor add_offset : ℚ)
    (clip_range : Option (ℚ × ℚ)) (new_nodata : ℚ) (new_dtype : String) :
    Except PyErr BandV :=
  match List.lookup "nodata" band.attrs with
  | none => .error .configurationError
  | some nodataVal =>
    let mask := map3 (fun v => decide (AttrVal.num v = nodataVal)) band.data
    let scaled := map3 (fun v => v * scale_factor + add_offset) band.data
    let clipped :=
      match clip_range with
      | some (lo, hi) => map3 (fun v => max lo (min v hi)) scaled
      | none => scaled
    let casted := map3 (castDtype new_dtype) clipped
    let filled :=
      zip3With (fun m v => if m then castDtype new_dtype new_nodata else v) mask casted
    .ok ⟨filled, setKey band.attrs "nodata" (AttrVal.num new_nodata)⟩

/-- An explicit heap, for the frame property of the normalizer: numpy array
buffers and python attribute dictionaries addressed by identifiers.  Fresh
objects are appended at the end; an in-place write updates an entry. -/
structure Store where
  arrays : List Cells
  dicts : List Dict

def Store.getArr (s : Store) (i : ℕ) : Cells := s.arrays.getD i []

def Store.getDict (s : Store) (i : ℕ) : Dict := s.dicts.getD i []

def Store.allocArr (s : Store) (a : Cells) : Store × ℕ :=
  (⟨s.arrays ++ [a], s.dicts⟩, s.arrays.length)

def Store.setArr (s : Store) (i : ℕ) (a : Cells) : Store :=
  ⟨s.arrays.set i a, s.dicts⟩

def Store.allocDict (s : Store) (d : Dict) : Store × ℕ :=
  (⟨s.arrays, s.dicts ++ [d]⟩, s.dicts.length)

def Store.setDict (s : Store) (i : ℕ) (d : Dict) : Store :=
  ⟨s.arrays, s.dicts.set i d⟩

/-- A DataArray as a pair of references into the store: its buffer and its
attribute dictionary. -/
structure BandRef where
  dataId : ℕ
  attrsId : ℕ

/-- Heap-explicit embedding of the same source lines 107-126 as
scale_and_clip_dataarray, making object identity visible:
  * the multiplication of line 114 and the astype of line 120 allocate
    fresh buffers (numpy arithmetic returns new arrays, and astype copies
    by default), so the original buffer is never written;
  * the masked write of line 122 is an in-place store, but into the buffer
    the astype of line 120 just created;
  * the attribute assignment of line 123 goes through the xarray attrs
    setter, which wraps the assigned mapping in a fresh dict, so the
    nodata update of line 124 hits only that copy, never the input's
    dictionary. -/
def scale_and_clip_heap (s0 : Store) (da : BandRef) (scale_factor add_offset : ℚ)
    (clip_range : Option (ℚ × ℚ)) (new_nodata : ℚ) (new_dtype : String) :
    Except PyErr (Store × BandRef) :=
  let orig_attrs := da.attrsId
  match List.lookup "nodata" (s0.getDict orig_attrs) with
  | none => .error .keyError
  | some nodataVal =>
    let mask := map3 (fun v => decide (AttrVal.num v = nodataVal)) (s0.getArr da.dataId)
    let p1 := s0.allocArr (map3 (fun v => v * scale_factor + add_offset) (s0.getArr da.dataId))
    let s1 := p1.1
    let a1 := p1.2
    let _clipDiscarded :=
      match clip_range with
      | some (lo, hi) => map3 (fun v => max lo (min v hi)) (s1.getArr a1)
      | none => s1.getArr a1
    let p2 := s1.allocArr (map3 (castDtype new_dtype) (s1.getArr a1))
    let s2 := p2.1
    let a2 := p2.2
    let s3 := s2.setArr a2
      (zip3With (fun m v => if m then castDtype new_dtype new_nodata else v) mask (s2.getArr a2))
    let p3 := s3.allocDict (s3.getDict orig_attrs)
    let s4 := p3.1
    let d1 := p3.2
    let s5 := s4.setDict d1 (setKey (s4.getDict d1) "nodata" (AttrVal.num new_nodata))
    .ok (s5, ⟨a2, d1⟩)


structure Measurement where
  name : String
  dtype : String
  nodata : ℤ
  units : String
deriving DecidableEq

/-- Embedding of the FC_MEASUREMENTS table (src/fc/virtualproduct.py,
lines 7-32). -/
def FC_MEASUREMENTS : List Measurement :=
  [⟨"pv", "int8", -1, "percent"⟩,
   ⟨"npv", "int8", -1, "percent"⟩,
   ⟨"bs", "int8", -1, "percent"⟩,
   ⟨"ue", "int8", -1, ""⟩]

/-- Regression coefficients: band name to the two-element list [a, b] the
constructor stores, modelled as an ordered pair. -/
abbrev RC := List (String × (ℚ × ℚ))

/-- The state a FractionalCover instance carries after __init__. -/
structure FCConfig where
  regression_coefficients : RC
  c2_scaling : Bool
  test_mode : Bool

def requiredBands : List String := ["green", "red", "nir", "swir1", "swir2"]

/-- Embedding of FractionalCover.__init__ (lines 41-48): when no
regression coefficients are supplied, install the pair [0, 1] for each of
the five required bands. -/
def FractionalCover.init (regression_coefficients : Option RC)
    (c2_scaling test_mode : Bool) : FCConfig :=
  match regression_coefficients with
  | none => ⟨requiredBands.map (fun band => (band, ((0 : ℚ), (1 : ℚ)))), c2_scaling, test_mode⟩
  | some rc => ⟨rc, c2_scaling, test_mode⟩

/-- Modelled from the spec: the consumer of the regression coefficients
(fc.fractional_cover) is not part of src/; section 3 of the spec defines a
coefficient entry as a pair (slope, intercept) used to linearly
recalibrate the band value, so recalibration of v by a pair p is
v * slope + intercept with slope = p.1 and intercept = p.2. -/
def recalibrate (p : ℚ × ℚ) (v : ℚ) : ℚ := v * p.1 + p.2

/-- One band of a single-timestep slice. -/
structure BandS where
  data : Grid
  attrs : Dict
deriving DecidableEq

/-- A single-timestep dataset: what one loop iteration of compute hands to
the unmixing function, and what that function returns. -/
structure SliceV where
  bands : List (String × BandS)
  attrs : Dict
  time : ℚ
deriving DecidableEq

/-- A multi-timestep dataset: named bands, dataset-level attributes and
the time coordinate. -/
structure Dataset where
  bands : List (String × BandV)
  attrs : Dict
  time : List ℚ
deriving DecidableEq

def bandNames (ds : Dataset) : List String := ds.bands.map Prod.fst

def sliceBandNames (sl : SliceV) : List String := sl.bands.map Prod.fst

/-- The unmixing function fractional_cover, imported from
fc.fractional_cover (not part of this module): per the spec an injected
pure function of the slice, the output measurement contract and the
regression coefficients. -/
abbrev Unmix := SliceV → List Measurement → RC → SliceV

/-- Embedding of data.isel(x=slice(0, 100), y=slice(0, 100)) (line 56):
the first 100 cells along each spatial axis of every band. -/
def iselXY100 (ds : Dataset) : Dataset :=
  ⟨ds.bands.map (fun p =>
      (p.1, ⟨p.2.data.map (fun g => (g.take 100).map (fun r => r.take 100)), p.2.attrs⟩)),
   ds.attrs, ds.time⟩

/-- The per-band loop of Dataset.apply as invoked by
scale_usgs_collection2: each data variable goes through
scale_and_clip_dataarray with the USGS collection-2 parameters. -/
def scaleBandsAux : List (String × BandV) → Except PyErr (List (String × BandV))
  | [] => .ok []
  | (nm, b) :: rest =>
    match scale_and_clip_dataarray b (275/1000) (-2000) (some (0, 10000)) (-999) "int16" with
    | .error e => .error e
    | .ok b2 =>
      match scaleBandsAux rest with
      | .error e => .error e
      | .ok r => .ok ((nm, b2) :: r)

/-- Embedding of scale_usgs_collection2 (lines 103-105): apply the
per-band transform to every band, keeping the dataset-level attributes
(keep_attrs=True) and coordinates. -/
def scale_usgs_collection2 (ds : Dataset) : Except PyErr Dataset :=
  match scaleBandsAux ds.bands with
  | .error e => .error e
  | .ok bs => .ok ⟨bs, ds.attrs, ds.time⟩

/-- The conditional scaling step shared by FractionalCover.compute
(lines 57-59) and FakeFractionalCover.compute (lines 94-96). -/
def scaleIfC2 (c2 : Bool) (ds : Dataset) : Except PyErr Dataset :=
  if c2 then scale_usgs_collection2 ds else .ok ds

/-- Embedding of data.isel(time=time_idx) (line 64): one time layer of
every band; each band keeps its attributes, the slice keeps the dataset
attributes and its scalar time coordinate. -/
def sliceAt (ds : Dataset) (i : ℕ) : SliceV :=
  ⟨ds.bands.map (fun p => (p.1, ⟨p.2.data.getD i [], p.2.attrs⟩)), ds.attrs, ds.time.getD i 0⟩

/-- Data of the named band of a slice, empty when absent (used to express
concatenation results; concatTime itself errors on a missing band). -/
def dataOfBand (sl : SliceV) (nm : String) : Grid :=
  ((List.lookup nm sl.bands).map BandS.data).getD []

def collectBand (nm : String) : List SliceV → Except PyErr (List Grid)
  | [] => .ok []
  | sl :: rest =>
    match List.lookup nm sl.bands with
    | none => .error .valueError
    | some b =>
      match collectBand nm rest with
      | .error e => .error e
      | .ok gs => .ok (b.data :: gs)

def buildBands (slices : List SliceV) : List (String × BandS) → Except PyErr (List (String × BandV))
  | [] => .ok []
  | (nm, b0) :: rest =>
    match collectBand nm slices with
    | .error e => .error e
    | .ok gs =>
      match buildBands slices rest with
      | .error e => .error e
      | .ok bs => .ok ((nm, ⟨gs, b0.attrs⟩) :: bs)

/-- Embedding of xr.concat(fc, dim='time') (line 65): raises on an empty
list of objects; otherwise takes band order, band attributes and dataset
attributes from the first slice (combine_attrs override) and stacks every
band's per-slice layers in list order, erroring when a band is missing
from any slice. -/
def concatTime (slices : List SliceV) : Except PyErr Dataset :=
  match slices with
  | [] => .error .valueError
  | s0 :: _ =>
    match buildBands slices s0.bands with
    | .error e => .error e
    | .ok bs => .ok ⟨bs, s0.attrs, slices.map SliceV.time⟩

/-- The band renaming requested by fc.rename(BS='bs', PV='pv', NPV='npv',
UE='ue') (line 68). -/
def renameKey (n : String) : String :=
  if n = "BS" then "bs" else if n = "PV" then "pv"
  else if n = "NPV" then "npv" else if n = "UE" then "ue" else n

/-- Embedding of Dataset.rename with the four uppercase keys (line 68):
xarray raises a ValueError when any requested key is not a variable of
the dataset; otherwise every requested band is renamed. -/
def renameDataset (ds : Dataset) : Except PyErr Dataset :=
  if (["BS", "PV", "NPV", "UE"] : List String).all (fun k => (List.lookup k ds.bands).isSome) then
    .ok ⟨ds.bands.map (fun p => (renameKey p.1, p.2)), ds.attrs, ds.time⟩
  else .error .valueError

/-- The try/except of lines 67-70: attempt the rename, swallow a
ValueError and keep the cube unrenamed, re-raise anything else. -/
def tryRename (fc : Dataset) : Except PyErr Dataset :=
  match renameDataset fc with
  | .ok r => .ok r
  | .error .valueError => .ok fc
  | .error e => .error e

/-- Embedding of FractionalCover.compute (lines 53-71): optional test-mode
spatial subsampling, optional collection-2 scaling, the per-timestep
unmixing loop in increasing time order, concatenation along time, the crs
copy-through of line 66, and the rename attempt whose ValueError is
swallowed (lines 67-70). -/
def FractionalCover.compute (unmix : Unmix) (cfg : FCConfig) (ds : Dataset) :
    Except PyErr Dataset :=
  let data0 := if cfg.test_mode then iselXY100 ds else ds
  match scaleIfC2 cfg.c2_scaling data0 with
  | .error e => .error e
  | .ok data =>
    let slices := (List.range data.time.length).map
      (fun i => unmix (sliceAt data i) FC_MEASUREMENTS cfg.regression_coefficients)
    match concatTime slices with
    | .error e => .error e
    | .ok fc0 =>
      match List.lookup "crs" data.attrs with
      | none => .error .keyError
      | some crs =>
        tryRename ⟨fc0.bands, setKey fc0.attrs "crs" crs, fc0.time⟩

/-- Embedding of FakeFractionalCover.compute (lines 93-100): optional
collection-2 scaling, then a fresh dataset reusing the red band for pv
and bs and the green band for npv, with the input's attributes; a missing
band makes the attribute access data.red or data.green raise. -/
def FakeFractionalCover.compute (cfg : FCConfig) (ds : Dataset) : Except PyErr Dataset :=
  match scaleIfC2 cfg.c2_scaling ds with
  | .error e => .error e
  | .ok data =>
    match List.lookup "red" data.bands with
    | none => .error .attributeError
    | some red =>
      match List.lookup "green" data.bands with
      | none => .error .attributeError
      | some green =>
        .ok ⟨[("pv", red), ("bs", red), ("npv", green)], data.attrs, data.time⟩

/-- Embedding of FractionalCover.measurements (lines 50-51): a static
four-entry contract independent of the input measurements. -/
def FractionalCover.measurements (_input_measurements : List Measurement) :
    List (String × Measurement) :=
  FC_MEASUREMENTS.map (fun m => (m.name, m))

/-- One unmixing call of the compute loop. -/
def unmixAt (unmix : Unmix) (rc : RC) (data : Dataset) (i : ℕ) : SliceV :=
  unmix (sliceAt data i) FC_MEASUREMENTS rc

/-- The rename attempt with its ValueError swallowed, as a total function:
what compute does to the concatenated cube in lines 67-70. -/
def renameOrKeep (d : Dataset) : Dataset :=
  match renameDataset d with
  | .ok r => r
  | .error _ => d


/-- A concrete unmixing stand-in returning four constant lowercase bands,
used to instantiate the universally quantified pipeline theorems. -/
def unmix0 : Unmix := fun sl _ _ =>
  ⟨[("pv", ⟨[[10]], []⟩), ("npv", ⟨[[20]], []⟩), ("bs", ⟨[[30]], []⟩),
    ("ue", ⟨[[40]], []⟩)], [], sl.time⟩


/-- Uniform spatial extent of one grid: Y rows of X cells each. -/
def gridUniform (g : Grid) (Y X : ℕ) : Prop := g.map List.length = List.replicate Y X

/-- Every band of a slice has extent Y by X. -/
def sliceUniform (sl : SliceV) (Y X : ℕ) : Prop := ∀ p ∈ sl.bands, gridUniform p.2.data Y X

/-- Every time layer of every band of a dataset has extent Y by X. -/
def dsUniform (d : Dataset) (Y X : ℕ) : Prop :=
  ∀ p ∈ d.bands, ∀ g ∈ p.2.data, gridUniform g Y X

/-- A dataset at the heap level: named band references into the store,
the identifier of the dataset attribute dictionary, and the time
coordinate (coordinates are never written by the module, so they stay
value-level). -/
structure HeapDataset where
  bands : List (String × BandRef)
  attrsId : ℕ
  time : List ℚ

/-- Per-band step of the heap isel: the selected cells of each band.
xarray isel produces views over the old buffers; no in-place write in
the module ever targets those views (line 122 writes the buffer astype
just created, line 66 writes the concat result's dictionary), so the
views are modelled as fresh buffers holding the selected cells.  Band
attribute dictionaries are carried over unallocated: isel does not copy
attrs. -/
def iselBandsAux (s : Store) : List (String × BandRef) → Store × List (String × BandRef)
  | [] => (s, [])
  | (nm, r) :: rest =>
    let p := s.allocArr
      ((s.getArr r.dataId).map (fun g => (g.take 100).map (fun row => row.take 100)))
    let q := iselBandsAux p.1 rest
    (q.1, (nm, ⟨p.2, r.attrsId⟩) :: q.2)

/-- Heap version of data.isel(x=slice(0, 100), y=slice(0, 100)) of
line 56. -/
def iselXY100_heap (s : Store) (ds : HeapDataset) : Store × HeapDataset :=
  let p := iselBandsAux s ds.bands
  (p.1, ⟨p.2, ds.attrsId, ds.time⟩)

/-- Heap version of the per-band loop of Dataset.apply as invoked by
scale_usgs_collection2, each band going through the heap normalizer. -/
def scaleBandsAux_heap (s : Store) :
    List (String × BandRef) → Except PyErr (Store × List (String × BandRef))
  | [] => .ok (s, [])
  | (nm, r) :: rest =>
    match scale_and_clip_heap s r (275/1000) (-2000) (some (0, 10000)) (-999) "int16" with
    | .error e => .error e
    | .ok (s1, r2) =>
      match scaleBandsAux_heap s1 rest with
      | .error e => .error e
      | .ok (s2, rs) => .ok (s2, (nm, r2) :: rs)

/-- Heap version of scale_usgs_collection2 (lines 103-105): Dataset.apply
builds a new Dataset, and keep_attrs=True copies the dataset attributes
onto it (a fresh dictionary with the same entries). -/
def scale_usgs_collection2_heap (s : Store) (ds : HeapDataset) :
    Except PyErr (Store × HeapDataset) :=
  match scaleBandsAux_heap s ds.bands with
  | .error e => .error e
  | .ok (s1, bs) =>
    let p := s1.allocDict (s1.getDict ds.attrsId)
    .ok (p.1, ⟨bs, p.2, ds.time⟩)

/-- Heap version of data.isel(time=time_idx) of line 64, read off as a
value: the slice is handed to the unmixing function by value, per the
spec's injected-pure-function contract for fractional_cover. -/
def sliceAt_heap (s : Store) (ds : HeapDataset) (i : ℕ) : SliceV :=
  ⟨ds.bands.map (fun p => (p.1, ⟨(s.getArr p.2.dataId).getD i [], s.getDict p.2.attrsId⟩)),
   s.getDict ds.attrsId, ds.time.getD i 0⟩

/-- Store the bands of a freshly concatenated dataset: xr.concat copies
the data into new buffers and the result's variables get their own
attribute dictionaries. -/
def materializeBands (s : Store) : List (String × BandV) → Store × List (String × BandRef)
  | [] => (s, [])
  | (nm, b) :: rest =>
    let p := s.allocArr b.data
    let q := p.1.allocDict b.attrs
    let rr := materializeBands q.1 rest
    (rr.1, (nm, ⟨p.2, q.2⟩) :: rr.2)

/-- Heap version of xr.concat(fc, dim='time') of line 65: the value-level
concatenation, materialized into fresh buffers and dictionaries. -/
def concat_heap (s : Store) (slices : List SliceV) : Except PyErr (Store × HeapDataset) :=
  match concatTime slices with
  | .error e => .error e
  | .ok d =>
    let p := materializeBands s d.bands
    let q := p.1.allocDict d.attrs
    .ok (q.1, ⟨p.2, q.2, d.time⟩)

/-- Heap version of Dataset.rename with the four uppercase keys (line
68): a pure renaming of the band keys; the variables and dictionaries
are shared with the input, and a missing key raises a ValueError. -/
def renameDataset_heap (ds : HeapDataset) : Except PyErr HeapDataset :=
  if (["BS", "PV", "NPV", "UE"] : List String).all
      (fun k => (List.lookup k ds.bands).isSome) then
    .ok ⟨ds.bands.map (fun p => (renameKey p.1, p.2)), ds.attrsId, ds.time⟩
  else .error .valueError

/-- Heap embedding of FractionalCover.compute (lines 53-71), the store
operations made visible: the conditional isel and scaling reassign data,
the loop hands each slice to the unmixing function by value, the concat
result is fresh, line 66's subscript assignment writes the crs entry
into the concat result's dictionary in place, and the rename swallows a
ValueError. -/
def FractionalCover.compute_heap (unmix : Unmix) (cfg : FCConfig) (s : Store)
    (ds : HeapDataset) : Except PyErr (Store × HeapDataset) :=
  match (if cfg.test_mode then iselXY100_heap s ds else (s, ds)) with
  | (s0, data0) =>
    match (if cfg.c2_scaling then scale_usgs_collection2_heap s0 data0
        else .ok (s0, data0)) with
    | .error e => .error e
    | .ok (s1, data1) =>
      match concat_heap s1 ((List.range data1.time.length).map
          (fun i => unmix (sliceAt_heap s1 data1 i) FC_MEASUREMENTS
            cfg.regression_coefficients)) with
      | .error e => .error e
      | .ok (s2, fc0) =>
        match List.lookup "crs" (s2.getDict data1.attrsId) with
        | none => .error .keyError
        | some crs =>
          let s3 := s2.setDict fc0.attrsId (setKey (s2.getDict fc0.attrsId) "crs" crs)
          match renameDataset_heap fc0 with
          | .ok r => .ok (s3, r)
          | .error .valueError => .ok (s3, fc0)
          | .error e => .error e

/-- Frame relation between stores: every array entry below na and every
dictionary entry below nd is unchanged, and the heap only grows. -/
def Framed (na nd : ℕ) (s s2 : Store) : Prop :=
  (∀ i, i < na → s2.getArr i = s.getArr i) ∧
  (∀ i, i < nd → s2.getDict i = s.getDict i) ∧
  s.arrays.length ≤ s2.arrays.length ∧ s.dicts.length ≤ s2.dicts.length


theorem getElem?_zipWith' {α β γ : Type} (f : α → β → γ) (a : List α) (b : List β) (i : ℕ) :
    getElem? (List.zipWith f a b) i
      = (getElem? a i).bind fun va => (getElem? b i).map (f va) := by
  induction a generalizing b i with
  | nil => simp
  | cons ha ta ih =>
    cases b with
    | nil => simp
    | cons hb tb =>
      cases i with
      | zero => simp
      | succ n => simpa using ih tb n

theorem cellAt_map3 {α β : Type} (f : α → β) (c : List (List (List α))) (t y x : ℕ) :
    cellAt (map3 f c) t y x = (cellAt c t y x).map f := by
  rcases ht : getElem? c t with _ | g
  · simp [cellAt, map3, List.getElem?_map, ht]
  · rcases hy : getElem? g y with _ | r
    · simp [cellAt, map3, List.getElem?_map, ht, hy]
    · rcases hx : getElem? r x with _ | v
      · simp [cellAt, map3, List.getElem?_map, ht, hy, hx]
      · simp [cellAt, map3, List.getElem?_map, ht, hy, hx]

theorem cellAt_zip3With {α β γ : Type} (f : α → β → γ) (a : List (List (List α)))
    (b : List (List (List β))) (t y x : ℕ) :
    cellAt (zip3With f a b) t y x
      = (cellAt a t y x).bind fun va => (cellAt b t y x).map (f va) := by
  rcases ht : getElem? a t with _ | ga
  · simp [cellAt, zip3With, getElem?_zipWith', ht]
  · rcases ht2 : getElem? b t with _ | gb
    · simp [cellAt, zip3With, getElem?_zipWith', ht, ht2]
    · rcases hy : getElem? ga y with _ | ra
      · simp [cellAt, zip3With, getElem?_zipWith', ht, ht2, hy]
      · rcases hy2 : getElem? gb y with _ | rb
        · simp [cellAt, zip3With, getElem?_zipWith', ht, ht2, hy, hy2]
        · rcases hx : getElem? ra x with _ | va
          · simp [cellAt, zip3With, getElem?_zipWith', ht, ht2, hy, hy2, hx]
          · rcases hx2 : getElem? rb x with _ | vb
            · simp [cellAt, zip3With, getElem?_zipWith', ht, ht2, hy, hy2, hx, hx2]
            · simp [cellAt, zip3With, getElem?_zipWith', ht, ht2, hy, hy2, hx, hx2]

theorem lookup_setKey (d : Dict) (k : String) (v : AttrVal) :
    List.lookup k (setKey d k v) = some v := by
  induction d with
  | nil => simp [setKey, List.lookup]
  | cons p rest ih =>
    obtain ⟨k', v'⟩ := p
    by_cases h : k' = k
    · simp [setKey, h, List.lookup]
    · have hb : (k == k') = false := beq_eq_false_iff_ne.mpr fun h2 => h h2.symm
      simp [setKey, h, List.lookup, hb, ih]

theorem lookup_setKey_ne (d : Dict) (k k0 : String) (v : AttrVal) (h : k0 ≠ k) :
    List.lookup k0 (setKey d k v) = List.lookup k0 d := by
  have hb : (k0 == k) = false := beq_eq_false_iff_ne.mpr h
  induction d with
  | nil => simp [setKey, List.lookup, hb]
  | cons p rest ih =>
    obtain ⟨k', v'⟩ := p
    by_cases h1 : k' = k
    · subst h1
      simp [setKey, List.lookup, hb]
    · rcases hb2 : (k0 == k') with _ | _
      · simp [setKey, h1, List.lookup, hb2, ih]
      · simp [setKey, h1, List.lookup, hb2]

theorem ratTrunc_intCast (n : ℤ) : ratTrunc ((n : ℤ) : ℚ) = n := by
  unfold ratTrunc
  split <;> simp

theorem castDtype_int16_val {q : ℚ} {n : ℤ} (hq : q = ((n : ℤ) : ℚ))
    (h1 : -32768 ≤ n) (h2 : n < 32768) : castDtype "int16" q = ((n : ℤ) : ℚ) := by
  unfold castDtype wrapSigned
  rw [if_pos rfl, hq, ratTrunc_intCast]
  have e1 : (2 : ℤ) ^ (16 - 1 : ℕ) = 32768 := by norm_num
  have e2 : (2 : ℤ) ^ (16 : ℕ) = 65536 := by norm_num
  rw [e1, e2]
  have hm : (n + 32768) % 65536 = n + 32768 :=
    Int.emod_eq_of_lt (by omega) (by omega)
  rw [hm]
  push_cast
  ring

theorem maskDecide_true (q : ℚ) : decide (AttrVal.num q = AttrVal.num q) = true :=
  decide_eq_true rfl

theorem maskDecide_false {a b : ℚ} (h : a ≠ b) :
    decide (AttrVal.num a = AttrVal.num b) = false :=
  decide_eq_false (by simp [h])

/-- C1: at the non-nodata raw value 5000 with the USGS collection-2
configuration, the source function returns -625 (the clip result of
line 118 is discarded, so the transformed value is cast unclipped),
while the spec-mandated normalize returns clip(5000*0.275-2000, 0,
10000) = 0 cast to int16 = 0.  The two disagree, so the code does not
implement the affine-then-clip-then-cast contract. -/
theorem C1_clip_discarded :
    scale_and_clip_dataarray ⟨[[[5000]]], [("nodata", AttrVal.num (-999))]⟩
        (275/1000) (-2000) (some (0, 10000)) (-999) "int16"
      = Except.ok ⟨[[[(-625 : ℚ)]]], [("nodata", AttrVal.num (-999))]⟩ ∧
    normalize_spec ⟨[[[5000]]], [("nodata", AttrVal.num (-999))]⟩
        (275/1000) (-2000) (some (0, 10000)) (-999) "int16"
      = Except.ok ⟨[[[(0 : ℚ)]]], [("nodata", AttrVal.num (-999))]⟩ ∧
    ((-625 : ℚ)) ≠ 0 := by
  have hl : List.lookup "nodata" ([("nodata", AttrVal.num (-999))] : Dict)
      = some (AttrVal.num (-999)) := rfl
  have hne : ((5000 : ℚ)) ≠ -999 := by norm_num
  have hraw : castDtype "int16" ((5000 : ℚ) * (275/1000) + -2000) = ((-625 : ℤ) : ℚ) :=
    castDtype_int16_val (by norm_num) (by norm_num) (by norm_num)
  have hclip : castDtype "int16" (max 0 (min ((5000 : ℚ) * (275/1000) + -2000) 10000))
      = ((0 : ℤ) : ℚ) :=
    castDtype_int16_val (by norm_num) (by norm_num) (by norm_num)
  refine ⟨?_, ?_, by norm_num⟩
  · simp only [scale_and_clip_dataarray, hl, map3, zip3With, List.map, List.zipWith,
      maskDecide_false hne, hraw, setKey]
    norm_num
  · simp only [normalize_spec, hl, map3, zip3With, List.map, List.zipWith,
      maskDecide_false hne, hclip, setKey]
    norm_num

/-- C2: any cell whose raw value equals the band's declared nodata value
(the mask being taken on the raw data, before any arithmetic) holds
exactly new_nodata in the output, and the output's nodata attribute
equals new_nodata, for every scale factor, offset and clip range. -/
theorem C2_nodata_invariance (band : BandV) (scale_factor add_offset : ℚ)
    (clip_range : Option (ℚ × ℚ)) (new_nodata : ℚ) (n : ℚ) (t y x : ℕ)
    (hnod : List.lookup "nodata" band.attrs = some (AttrVal.num n))
    (hcell : cellAt band.data t y x = some n)
    (hfit : castDtype "int16" new_nodata = new_nodata) :
    ∃ out,
      scale_and_clip_dataarray band scale_factor add_offset clip_range new_nodata "int16"
        = Except.ok out ∧
      cellAt out.data t y x = some new_nodata ∧
      List.lookup "nodata" out.attrs = some (AttrVal.num new_nodata) := by
  refine ⟨⟨zip3With (fun m v => if m then castDtype "int16" new_nodata else v)
      (map3 (fun v => decide (AttrVal.num v = AttrVal.num n)) band.data)
      (map3 (castDtype "int16") (map3 (fun v => v * scale_factor + add_offset) band.data)),
      setKey band.attrs "nodata" (AttrVal.num new_nodata)⟩, ?_, ?_, ?_⟩
  · simp only [scale_and_clip_dataarray, hnod]
  · rw [cellAt_zip3With, cellAt_map3, cellAt_map3, cellAt_map3, hcell]
    simp [hfit]
  · exact lookup_setKey _ _ _

/-- Witness for C2 at a concrete band holding the sentinel -999 at cell
(0,0,1) with the USGS collection-2 configuration. -/
theorem C2_nodata_invariance_witness :
    ∃ out,
      scale_and_clip_dataarray ⟨[[[5000, -999]]], [("nodata", AttrVal.num (-999))]⟩
          (275/1000) (-2000) (some (0, 10000)) (-999) "int16"
        = Except.ok out ∧
      cellAt out.data 0 0 1 = some (-999) ∧
      List.lookup "nodata" out.attrs = some (AttrVal.num (-999)) :=
  C2_nodata_invariance ⟨[[[5000, -999]]], [("nodata", AttrVal.num (-999))]⟩
    (275/1000) (-2000) (some (0, 10000)) (-999) (-999) 0 0 1
    rfl rfl
    (by rw [castDtype_int16_val (show ((-999 : ℚ)) = ((-999 : ℤ) : ℚ) by norm_num)
          (by norm_num) (by norm_num)]
        norm_num)

/-- C5 counterexample: on a band with no nodata attribute the source
function fails with a KeyError (the bare dict subscript of line 110),
not with the ConfigurationError the claim names; the spec-mandated
normalize of section 7 would have raised a ConfigurationError. -/
theorem C5_config_error_counterexample :
    scale_and_clip_dataarray ⟨[[[1]]], []⟩ 1 0 none (-999) "int16"
      = Except.error PyErr.keyError ∧
    normalize_spec ⟨[[[1]]], []⟩ 1 0 none (-999) "int16"
      = Except.error PyErr.configurationError ∧
    PyErr.keyError ≠ PyErr.configurationError := by
  refine ⟨rfl, rfl, by decide⟩

/-- C5 (amended): a band without nodata metadata makes the function fail,
fast and independently of the cell data, with a KeyError (the bare dict
subscript of line 110) rather than a ConfigurationError; a band that
does declare a nodata value never makes it raise, for any scale, offset
and clip range, at the module's default sentinel -999 and dtype int16 —
the only sentinel and dtype the source ever passes. -/
theorem C5_missing_nodata_fails_fast (attrs : Dict) (data : Cells) (sf off : ℚ)
    (cr : Option (ℚ × ℚ)) :
    (List.lookup "nodata" attrs = none →
      scale_and_clip_dataarray ⟨data, attrs⟩ sf off cr (-999) "int16"
        = Except.error PyErr.keyError) ∧
    (∀ v, List.lookup "nodata" attrs = some v →
      ∃ out, scale_and_clip_dataarray ⟨data, attrs⟩ sf off cr (-999) "int16"
        = Except.ok out) := by
  constructor
  · intro h
    simp [scale_and_clip_dataarray, h]
  · intro v h
    refine ⟨⟨zip3With (fun m c => if m then castDtype "int16" (-999) else c)
        (map3 (fun c => decide (AttrVal.num c = v)) data)
        (map3 (castDtype "int16") (map3 (fun c => c * sf + off) data)),
        setKey attrs "nodata" (AttrVal.num (-999))⟩, ?_⟩
    simp only [scale_and_clip_dataarray, h]

/-- Witness for C5: the empty attribute dictionary triggers the KeyError
branch and a dictionary declaring nodata -999 succeeds. -/
theorem C5_missing_nodata_fails_fast_witness :
    scale_and_clip_dataarray ⟨[[[1]]], []⟩ 1 0 none (-999) "int16"
        = Except.error PyErr.keyError ∧
    ∃ out, scale_and_clip_dataarray ⟨[[[1]]], [("nodata", AttrVal.num (-999))]⟩
        1 0 none (-999) "int16" = Except.ok out :=
  ⟨(C5_missing_nodata_fails_fast [] [[[1]]] 1 0 none).1 rfl,
   (C5_missing_nodata_fails_fast [("nodata", AttrVal.num (-999))] [[[1]]] 1 0 none).2
      (AttrVal.num (-999)) rfl⟩

theorem getD_append_lt {α : Type} (l l2 : List α) (i : ℕ) (d : α) (h : i < l.length) :
    (l ++ l2).getD i d = l.getD i d := by
  induction l generalizing i with
  | nil => exact absurd h (by simp)
  | cons a t ih =>
    cases i with
    | zero => rfl
    | succ n => simpa using ih n (by simpa using h)

theorem getD_append_length {α : Type} (l : List α) (a : α) (l2 : List α) (d : α) :
    (l ++ a :: l2).getD l.length d = a := by
  induction l with
  | nil => rfl
  | cons b t ih => simpa using ih

theorem getD_set_ne {α : Type} (l : List α) (j i : ℕ) (v d : α) (h : j ≠ i) :
    (l.set j v).getD i d = l.getD i d := by
  induction l generalizing i j with
  | nil => simp
  | cons a t ih =>
    cases j with
    | zero =>
      cases i with
      | zero => exact absurd rfl h
      | succ n => simp
    | succ m =>
      cases i with
      | zero => simp
      | succ n => simpa using ih m n (by omega)

theorem getD_set_lt {α : Type} (l : List α) (j : ℕ) (v d : α) (h : j < l.length) :
    (l.set j v).getD j d = v := by
  induction l generalizing j with
  | nil => exact absurd h (by simp)
  | cons a t ih =>
    cases j with
    | zero => rfl
    | succ m => simpa using ih m (by simpa using h)

/-- Frame property of the heap normalizer: whenever the run succeeds,
the input band's buffer and attribute dictionary hold exactly their old
contents in the final heap, and the returned band is freshly constructed
(its buffer and dictionary are new allocations, distinct from the
input's). -/
theorem scale_and_clip_heap_frame (s0 : Store) (da : BandRef) (sf off : ℚ)
    (cr : Option (ℚ × ℚ)) (nn : ℚ) (dt : String)
    (hd : da.dataId < s0.arrays.length) (ha : da.attrsId < s0.dicts.length) :
    match scale_and_clip_heap s0 da sf off cr nn dt with
    | .ok (s1, out) =>
        s1.getArr da.dataId = s0.getArr da.dataId ∧
        s1.getDict da.attrsId = s0.getDict da.attrsId ∧
        out.dataId ≠ da.dataId ∧ out.attrsId ≠ da.attrsId ∧
        s0.arrays.length ≤ out.dataId ∧ s0.dicts.length ≤ out.attrsId
    | .error _ => True := by
  rcases hl : List.lookup "nodata" (s0.getDict da.attrsId) with _ | nv
  · simp only [scale_and_clip_heap, hl]
  · simp only [scale_and_clip_heap, hl]
    simp only [Store.allocArr, Store.setArr, Store.getArr, Store.allocDict,
      Store.setDict, Store.getDict]
    refine ⟨?_, ?_,
      by simp only [List.length_append, List.length_cons, List.length_nil]; omega,
      by omega,
      by simp only [List.length_append, List.length_cons, List.length_nil]; omega,
      by omega⟩
    · rw [getD_set_ne _ _ _ _ _
          (by simp only [List.length_append, List.length_cons, List.length_nil]; omega),
        getD_append_lt _ _ _ _
          (by simp only [List.length_append, List.length_cons, List.length_nil]; omega),
        getD_append_lt _ _ _ _ (by omega)]
    · rw [getD_set_ne _ _ _ _ _ (by omega),
        getD_append_lt _ _ _ _ (by omega)]

theorem Framed_refl (na nd : ℕ) (s : Store) : Framed na nd s s :=
  ⟨fun _ _ => rfl, fun _ _ => rfl, le_refl _, le_refl _⟩

theorem Framed_trans {na nd : ℕ} {s1 s2 s3 : Store} (h1 : Framed na nd s1 s2)
    (h2 : Framed na nd s2 s3) : Framed na nd s1 s3 :=
  ⟨fun i hi => (h2.1 i hi).trans (h1.1 i hi),
   fun i hi => (h2.2.1 i hi).trans (h1.2.1 i hi),
   le_trans h1.2.2.1 h2.2.2.1, le_trans h1.2.2.2 h2.2.2.2⟩

theorem Framed_allocArr (na nd : ℕ) (s : Store) (a : Cells) (h : na ≤ s.arrays.length) :
    Framed na nd s (s.allocArr a).1 := by
  refine ⟨?_, fun i hi => rfl, ?_, le_refl _⟩
  · intro i hi
    show (s.arrays ++ [a]).getD i [] = s.arrays.getD i []
    exact getD_append_lt _ _ _ _ (by omega)
  · show s.arrays.length ≤ (s.arrays ++ [a]).length
    simp

theorem Framed_allocDict (na nd : ℕ) (s : Store) (d : Dict) (h : nd ≤ s.dicts.length) :
    Framed na nd s (s.allocDict d).1 := by
  refine ⟨fun i hi => rfl, ?_, le_refl _, ?_⟩
  · intro i hi
    show (s.dicts ++ [d]).getD i [] = s.dicts.getD i []
    exact getD_append_lt _ _ _ _ (by omega)
  · show s.dicts.length ≤ (s.dicts ++ [d]).length
    simp

theorem Framed_setDict (na nd : ℕ) (s : Store) (j : ℕ) (d : Dict) (h : nd ≤ j) :
    Framed na nd s (s.setDict j d) := by
  refine ⟨fun i hi => rfl, ?_, le_refl _, ?_⟩
  · intro i hi
    show (s.dicts.set j d).getD i [] = s.dicts.getD i []
    exact getD_set_ne _ _ _ _ _ (by omega)
  · show s.dicts.length ≤ (s.dicts.set j d).length
    simp

/-- The heap normalizer only allocates and writes fresh cells: every
array entry below the initial array count and every dictionary entry
below the initial dictionary count is unchanged. -/
theorem scale_and_clip_heap_framed (na nd : ℕ) (s : Store) (da : BandRef) (sf off : ℚ)
    (cr : Option (ℚ × ℚ)) (nn : ℚ) (dt : String)
    (hna : na ≤ s.arrays.length) (hnd : nd ≤ s.dicts.length) :
    match scale_and_clip_heap s da sf off cr nn dt with
    | .ok (s1, _) => Framed na nd s s1
    | .error _ => True := by
  rcases hl : List.lookup "nodata" (s.getDict da.attrsId) with _ | nv
  · simp only [scale_and_clip_heap, hl]
  · simp only [scale_and_clip_heap, hl]
    simp only [Store.allocArr, Store.setArr, Store.getArr, Store.allocDict,
      Store.setDict, Store.getDict]
    refine ⟨?_, ?_,
      by simp only [List.length_set, List.length_append, List.length_cons,
        List.length_nil]; omega,
      by simp only [List.length_set, List.length_append, List.length_cons,
        List.length_nil]; omega⟩
    · intro i hi
      simp only [Store.getArr]
      rw [getD_set_ne _ _ _ _ _
          (by simp only [List.length_append, List.length_cons, List.length_nil]; omega),
        getD_append_lt _ _ _ _
          (by simp only [List.length_append, List.length_cons, List.length_nil]; omega),
        getD_append_lt _ _ _ _ (by omega)]
    · intro i hi
      simp only [Store.getDict]
      rw [getD_set_ne _ _ _ _ _ (by omega), getD_append_lt _ _ _ _ (by omega)]

theorem scaleBandsAux_heap_framed (na nd : ℕ) (bands : List (String × BandRef)) :
    ∀ (s : Store), na ≤ s.arrays.length → nd ≤ s.dicts.length →
    match scaleBandsAux_heap s bands with
    | .ok (s2, _) => Framed na nd s s2
    | .error _ => True := by
  induction bands with
  | nil =>
    intro s h1 h2
    simp only [scaleBandsAux_heap]
    exact Framed_refl na nd s
  | cons p rest ih =>
    intro s h1 h2
    obtain ⟨nm, r⟩ := p
    have hstep := scale_and_clip_heap_framed na nd s r (275/1000) (-2000)
      (some (0, 10000)) (-999) "int16" h1 h2
    rcases hs : scale_and_clip_heap s r (275/1000) (-2000) (some (0, 10000)) (-999) "int16"
      with e | ⟨s1, r2⟩
    · simp only [scaleBandsAux_heap, hs]
    · simp only [hs] at hstep
      have ih2 := ih s1 (le_trans h1 hstep.2.2.1) (le_trans h2 hstep.2.2.2)
      rcases hr : scaleBandsAux_heap s1 rest with e | ⟨s2, rs⟩
      · simp only [scaleBandsAux_heap, hs, hr]
      · simp only [scaleBandsAux_heap, hs, hr]
        simp only [hr] at ih2
        exact Framed_trans hstep ih2

theorem iselBandsAux_framed (na nd : ℕ) (bands : List (String × BandRef)) :
    ∀ (s : Store), na ≤ s.arrays.length → nd ≤ s.dicts.length →
    Framed na nd s (iselBandsAux s bands).1 := by
  induction bands with
  | nil =>
    intro s h1 h2
    exact Framed_refl na nd s
  | cons p rest ih =>
    intro s h1 h2
    obtain ⟨nm, r⟩ := p
    have hstep := Framed_allocArr na nd s
      ((s.getArr r.dataId).map (fun g => (g.take 100).map (fun row => row.take 100))) h1
    have ih2 := ih (s.allocArr ((s.getArr r.dataId).map
      (fun g => (g.take 100).map (fun row => row.take 100)))).1
      (le_trans h1 hstep.2.2.1) (le_trans h2 hstep.2.2.2)
    simp only [iselBandsAux]
    exact Framed_trans hstep ih2

theorem materializeBands_framed (na nd : ℕ) (bands : List (String × BandV)) :
    ∀ (s : Store), na ≤ s.arrays.length → nd ≤ s.dicts.length →
    Framed na nd s (materializeBands s bands).1 := by
  induction bands with
  | nil =>
    intro s h1 h2
    exact Framed_refl na nd s
  | cons p rest ih =>
    intro s h1 h2
    obtain ⟨nm, b⟩ := p
    have hstep1 := Framed_allocArr na nd s b.data h1
    have hstep2 := Framed_allocDict na nd (s.allocArr b.data).1 b.attrs
      (le_trans h2 hstep1.2.2.2)
    have ih2 := ih ((s.allocArr b.data).1.allocDict b.attrs).1
      (le_trans (le_trans h1 hstep1.2.2.1) hstep2.2.2.1)
      (le_trans (le_trans h2 hstep1.2.2.2) hstep2.2.2.2)
    simp only [materializeBands]
    exact Framed_trans (Framed_trans hstep1 hstep2) ih2

theorem concat_heap_framed (na nd : ℕ) (s : Store) (slices : List SliceV)
    (h1 : na ≤ s.arrays.length) (h2 : nd ≤ s.dicts.length) :
    match concat_heap s slices with
    | .ok (s2, fc0) => Framed na nd s s2 ∧ nd ≤ fc0.attrsId
    | .error _ => True := by
  rcases hc : concatTime slices with e | d
  · simp only [concat_heap, hc]
  · simp only [concat_heap, hc]
    have hm := materializeBands_framed na nd d.bands s h1 h2
    have hstep2 := Framed_allocDict na nd (materializeBands s d.bands).1 d.attrs
      (le_trans h2 hm.2.2.2)
    exact ⟨Framed_trans hm hstep2, le_trans h2 hm.2.2.2⟩

/-- The whole of compute, run on the explicit heap, only allocates and
writes fresh cells: every array entry and dictionary entry that existed
before the call is unchanged on success. -/
theorem compute_heap_framed (unmix : Unmix) (cfg : FCConfig) (s : Store)
    (ds : HeapDataset) (na nd : ℕ)
    (hna : na ≤ s.arrays.length) (hnd : nd ≤ s.dicts.length) :
    match FractionalCover.compute_heap unmix cfg s ds with
    | .ok (s2, _) => Framed na nd s s2
    | .error _ => True := by
  rcases h0 : (if cfg.test_mode then iselXY100_heap s ds else (s, ds)) with ⟨s0, data0⟩
  have hA : Framed na nd s s0 := by
    rcases htm : cfg.test_mode with _ | _
    · rw [htm] at h0
      simp only [Bool.false_eq_true, if_false, Prod.mk.injEq] at h0
      rw [← h0.1]
      exact Framed_refl na nd s
    · rw [htm] at h0
      simp only [if_true] at h0
      have h2 := iselBandsAux_framed na nd ds.bands s hna hnd
      have h3 : (iselXY100_heap s ds).1 = s0 := by rw [h0]
      rw [← h3]
      exact h2
  simp only [FractionalCover.compute_heap, h0]
  rcases h1 : (if cfg.c2_scaling then scale_usgs_collection2_heap s0 data0
      else Except.ok (s0, data0)) with e | ⟨s1, data1⟩
  · simp only [h1]
  · simp only [h1]
    have hB : Framed na nd s0 s1 := by
      rcases hc2 : cfg.c2_scaling with _ | _
      · rw [hc2] at h1
        simp only [Bool.false_eq_true, if_false, Except.ok.injEq, Prod.mk.injEq] at h1
        rw [← h1.1]
        exact Framed_refl na nd s0
      · rw [hc2] at h1
        simp only [if_true] at h1
        rcases hsb : scaleBandsAux_heap s0 data0.bands with e | ⟨sA, bsA⟩
        · simp [scale_usgs_collection2_heap, hsb] at h1
        · have hsf := scaleBandsAux_heap_framed na nd data0.bands s0
            (le_trans hna hA.2.2.1) (le_trans hnd hA.2.2.2)
          simp only [hsb] at hsf
          simp only [scale_usgs_collection2_heap, hsb, Except.ok.injEq,
            Prod.mk.injEq] at h1
          have hall := Framed_allocDict na nd sA (sA.getDict data0.attrsId)
            (le_trans (le_trans hnd hA.2.2.2) hsf.2.2.2)
          rw [← h1.1]
          exact Framed_trans hsf hall
    have hna1 : na ≤ s1.arrays.length := le_trans (le_trans hna hA.2.2.1) hB.2.2.1
    have hnd1 : nd ≤ s1.dicts.length := le_trans (le_trans hnd hA.2.2.2) hB.2.2.2
    have hC := concat_heap_framed na nd s1 ((List.range data1.time.length).map
      (fun i => unmix (sliceAt_heap s1 data1 i) FC_MEASUREMENTS
        cfg.regression_coefficients)) hna1 hnd1
    rcases hcc : concat_heap s1 ((List.range data1.time.length).map
        (fun i => unmix (sliceAt_heap s1 data1 i) FC_MEASUREMENTS
          cfg.regression_coefficients)) with e | ⟨s2, fc0⟩
    · simp only [hcc]
    · simp only [hcc]
      simp only [hcc] at hC
      rcases hcrs : List.lookup "crs" (s2.getDict data1.attrsId) with _ | crs
      · simp only [hcrs]
      · simp only [hcrs]
        have hD := Framed_setDict na nd s2 fc0.attrsId
          (setKey (s2.getDict fc0.attrsId) "crs" crs) hC.2
        have hfull : Framed na nd s
            (s2.setDict fc0.attrsId (setKey (s2.getDict fc0.attrsId) "crs" crs)) :=
          Framed_trans (Framed_trans (Framed_trans hA hB) hC.1) hD
        rcases hrn : renameDataset_heap fc0 with e | r
        · cases e <;> simp only [hrn]
          exact hfull
        · simp only [hrn]
          exact hfull

/-- The frame property of compute, phrased on the input cube: on success
every input band's buffer and attribute dictionary, and the input
dataset's attribute dictionary, hold exactly their old contents. -/
theorem compute_heap_frame (unmix : Unmix) (cfg : FCConfig) (s : Store) (ds : HeapDataset)
    (hb : ∀ p ∈ ds.bands, p.2.dataId < s.arrays.length ∧ p.2.attrsId < s.dicts.length)
    (ha : ds.attrsId < s.dicts.length) :
    match FractionalCover.compute_heap unmix cfg s ds with
    | .ok (s2, _) =>
        (∀ p ∈ ds.bands, s2.getArr p.2.dataId = s.getArr p.2.dataId ∧
          s2.getDict p.2.attrsId = s.getDict p.2.attrsId) ∧
        s2.getDict ds.attrsId = s.getDict ds.attrsId
    | .error _ => True := by
  have h := compute_heap_framed unmix cfg s ds s.arrays.length s.dicts.length
    (le_refl _) (le_refl _)
  rcases hres : FractionalCover.compute_heap unmix cfg s ds with e | ⟨s2, out⟩
  · simp only [hres]
  · simp only [hres] at h ⊢
    refine ⟨?_, h.2.1 ds.attrsId ha⟩
    intro p hp
    exact ⟨h.1 p.2.dataId (hb p hp).1, h.2.1 p.2.attrsId (hb p hp).2⟩

/-- C6: neither the normalizer nor compute mutates its input.  First
conjunct: a successful heap run of scale_and_clip_dataarray leaves the
input band's buffer and attribute dictionary exactly as they were (the
masked write of line 122 hits the buffer astype just created, and the
attrs setter of line 123 copies before the nodata update of line 124)
and returns a freshly allocated band.  Second conjunct: a successful
heap run of FractionalCover.compute leaves every input band's buffer and
dictionary and the input cube's attribute dictionary exactly as they
were — its only in-place write, the crs assignment of line 66, targets
the dictionary the concatenation just created. -/
theorem C6_no_mutation :
    (∀ (s : Store) (da : BandRef) (sf off : ℚ) (cr : Option (ℚ × ℚ)) (nn : ℚ)
      (dt : String),
      da.dataId < s.arrays.length → da.attrsId < s.dicts.length →
      match scale_and_clip_heap s da sf off cr nn dt with
      | .ok (s1, out) =>
          s1.getArr da.dataId = s.getArr da.dataId ∧
          s1.getDict da.attrsId = s.getDict da.attrsId ∧
          out.dataId ≠ da.dataId ∧ out.attrsId ≠ da.attrsId ∧
          s.arrays.length ≤ out.dataId ∧ s.dicts.length ≤ out.attrsId
      | .error _ => True) ∧
    (∀ (unmix : Unmix) (cfg : FCConfig) (s : Store) (ds : HeapDataset),
      (∀ p ∈ ds.bands, p.2.dataId < s.arrays.length ∧ p.2.attrsId < s.dicts.length) →
      ds.attrsId < s.dicts.length →
      match FractionalCover.compute_heap unmix cfg s ds with
      | .ok (s2, _) =>
          (∀ p ∈ ds.bands, s2.getArr p.2.dataId = s.getArr p.2.dataId ∧
            s2.getDict p.2.attrsId = s.getDict p.2.attrsId) ∧
          s2.getDict ds.attrsId = s.getDict ds.attrsId
      | .error _ => True) :=
  ⟨scale_and_clip_heap_frame, compute_heap_frame⟩

/-- Witness for C6: the normalizer on a one-band heap with the identity
scaling, and compute (test_mode and c2_scaling both enabled, with a
concrete unmixing stand-in) on a one-band heap cube. -/
theorem C6_no_mutation_witness :
    (match scale_and_clip_heap ⟨[[[[5]]]], [[("nodata", AttrVal.num (-999))]]⟩ ⟨0, 0⟩
        1 0 none (-999) "int16" with
      | .ok (s1, out) =>
          s1.getArr 0 = Store.getArr ⟨[[[[5]]]], [[("nodata", AttrVal.num (-999))]]⟩ 0 ∧
          s1.getDict 0 = Store.getDict ⟨[[[[5]]]], [[("nodata", AttrVal.num (-999))]]⟩ 0 ∧
          out.dataId ≠ 0 ∧ out.attrsId ≠ 0 ∧
          1 ≤ out.dataId ∧ 1 ≤ out.attrsId
      | .error _ => True) ∧
    (match FractionalCover.compute_heap unmix0 ⟨[], true, true⟩
        ⟨[[[[5000]]]], [[("nodata", AttrVal.num (-999))], [("crs", AttrVal.str "e")]]⟩
        ⟨[("green", ⟨0, 0⟩)], 1, [42]⟩ with
      | .ok (s2, _) =>
          (∀ p ∈ ([("green", (⟨0, 0⟩ : BandRef))] : List (String × BandRef)),
            s2.getArr p.2.dataId = Store.getArr ⟨[[[[5000]]]],
              [[("nodata", AttrVal.num (-999))], [("crs", AttrVal.str "e")]]⟩ p.2.dataId ∧
            s2.getDict p.2.attrsId = Store.getDict ⟨[[[[5000]]]],
              [[("nodata", AttrVal.num (-999))], [("crs", AttrVal.str "e")]]⟩ p.2.attrsId) ∧
          s2.getDict 1 = Store.getDict ⟨[[[[5000]]]],
            [[("nodata", AttrVal.num (-999))], [("crs", AttrVal.str "e")]]⟩ 1
      | .error _ => True) :=
  ⟨C6_no_mutation.1 ⟨[[[[5]]]], [[("nodata", AttrVal.num (-999))]]⟩ ⟨0, 0⟩ 1 0 none
      (-999) "int16" (by simp) (by simp),
   C6_no_mutation.2 unmix0 ⟨[], true, true⟩
      ⟨[[[[5000]]]], [[("nodata", AttrVal.num (-999))], [("crs", AttrVal.str "e")]]⟩
      ⟨[("green", ⟨0, 0⟩)], 1, [42]⟩
      (by
        intro p hp
        fin_cases hp
        exact ⟨by decide, by decide⟩)
      (by decide)⟩

theorem lookup_isSome_of_mem {β : Type} (l : List (String × β)) (k : String)
    (h : k ∈ l.map Prod.fst) : (List.lookup k l).isSome := by
  induction l with
  | nil => simp at h
  | cons p rest ih =>
    rcases eq_or_ne p.1 k with he | hne2
    · simp [List.lookup, he]
    · have hb : (k == p.1) = false := beq_eq_false_iff_ne.mpr (fun hh => hne2 hh.symm)
      simp only [List.map_cons, List.mem_cons] at h
      rcases h with h | h
      · exact absurd h.symm hne2
      · simp [List.lookup, hb, ih h]

theorem lookup_eq_none_of_not_mem {β : Type} (l : List (String × β)) (k : String)
    (h : k ∉ l.map Prod.fst) : List.lookup k l = none := by
  induction l with
  | nil => rfl
  | cons p rest ih =>
    simp only [List.map_cons, List.mem_cons, not_or] at h
    have hb : (k == p.1) = false := beq_eq_false_iff_ne.mpr h.1
    simp [List.lookup, hb, ih h.2]

theorem map_fst_keyed {β γ : Type} (l : List (String × β)) (G : String × β → γ) :
    (l.map (fun p => (p.1, G p))).map Prod.fst = l.map Prod.fst := by
  induction l with
  | nil => rfl
  | cons p rest ih => simp [ih]

theorem map_fst_renamed {β : Type} (l : List (String × β)) :
    (l.map (fun p => (renameKey p.1, p.2))).map Prod.fst
      = (l.map Prod.fst).map renameKey := by
  induction l with
  | nil => rfl
  | cons p rest ih => simp [ih]

theorem map_snd_renamed {β : Type} (l : List (String × β)) :
    (l.map (fun p => (renameKey p.1, p.2))).map Prod.snd = l.map Prod.snd := by
  induction l with
  | nil => rfl
  | cons p rest ih => simp [ih]

theorem map_keyed_comp {β γ : Type} (l : List (String × β)) (G : String × β → γ) :
    (l.map (fun p => (p.1, G p))).map (fun q => (renameKey q.1, q.2))
      = l.map (fun p => (renameKey p.1, G p)) := by
  induction l with
  | nil => rfl
  | cons p rest ih => simp [ih]

theorem map_keyed_rename_id {β γ : Type} (l : List (String × β)) (G : String × β → γ)
    (h : ∀ p ∈ l, renameKey p.1 = p.1) :
    l.map (fun p => (p.1, G p)) = l.map (fun p => (renameKey p.1, G p)) := by
  induction l with
  | nil => rfl
  | cons p rest ih =>
    simp only [List.map_cons, h p (by simp), List.cons.injEq, true_and]
    exact ih (fun q hq => h q (by simp [hq]))

theorem renameKey_id_on_lower (U : List String)
    (h : ∀ u ∈ U, u ∈ (["pv", "npv", "bs", "ue"] : List String)) :
    U.map renameKey = U := by
  induction U with
  | nil => rfl
  | cons a t ih =>
    have ha := h a (by simp)
    have hr : renameKey a = a := by
      fin_cases ha <;> rfl
    simp [hr, ih (fun u hu => h u (by simp [hu]))]

theorem map_range_getD {α : Type} (l : List α) (d : α) :
    (List.range l.length).map (fun i => l.getD i d) = l := by
  induction l with
  | nil => rfl
  | cons a t ih =>
    rw [List.length_cons, List.range_succ_eq_map]
    simp only [List.map_cons, List.map_map, Function.comp_def, List.getD_cons_zero,
      List.getD_cons_succ, List.cons.injEq, true_and]
    exact ih

theorem collectBand_ok (nm : String) (slices : List SliceV)
    (h : ∀ sl ∈ slices, (List.lookup nm sl.bands).isSome) :
    collectBand nm slices = .ok (slices.map (fun sl => dataOfBand sl nm)) := by
  induction slices with
  | nil => rfl
  | cons s rest ih =>
    have hs := h s (by simp)
    rcases hl : List.lookup nm s.bands with _ | b
    · rw [hl] at hs
      simp at hs
    · simp only [collectBand, hl, ih (fun sl hsl => h sl (by simp [hsl])), List.map_cons]
      simp [dataOfBand, hl]

theorem buildBands_ok (slices : List SliceV) (pairs : List (String × BandS))
    (h : ∀ nm ∈ pairs.map Prod.fst, ∀ sl ∈ slices, (List.lookup nm sl.bands).isSome) :
    buildBands slices pairs
      = .ok (pairs.map (fun p =>
          (p.1, ⟨slices.map (fun sl => dataOfBand sl p.1), p.2.attrs⟩))) := by
  induction pairs with
  | nil => rfl
  | cons p rest ih =>
    obtain ⟨nm, b0⟩ := p
    simp only [buildBands, collectBand_ok nm slices (h nm (by simp)),
      ih (fun nm2 h2 sl hsl => h nm2 (by simp [h2]) sl hsl), List.map_cons]

theorem concatTime_ok (s0 : SliceV) (rest : List SliceV)
    (h : ∀ nm ∈ s0.bands.map Prod.fst, ∀ sl ∈ s0 :: rest, (List.lookup nm sl.bands).isSome) :
    concatTime (s0 :: rest)
      = .ok ⟨s0.bands.map (fun p =>
            (p.1, ⟨(s0 :: rest).map (fun sl => dataOfBand sl p.1), p.2.attrs⟩)),
          s0.attrs, (s0 :: rest).map SliceV.time⟩ := by
  simp only [concatTime, buildBands_ok (s0 :: rest) s0.bands h]

theorem tryRename_eq (fc1 : Dataset) : tryRename fc1 = .ok (renameOrKeep fc1) := by
  unfold tryRename renameOrKeep renameDataset
  by_cases hg : ((["BS", "PV", "NPV", "UE"] : List String).all
      (fun k => (List.lookup k fc1.bands).isSome)) = true
  · simp [hg]
  · simp [hg]

theorem scaleIfC2_meta (c2 : Bool) (d0 data : Dataset)
    (hp : scaleIfC2 c2 d0 = Except.ok data) :
    data.time = d0.time ∧ data.attrs = d0.attrs := by
  cases c2 with
  | false =>
    have h2 : d0 = data := by simpa [scaleIfC2] using hp
    subst h2
    exact ⟨rfl, rfl⟩
  | true =>
    have hp2 : scale_usgs_collection2 d0 = .ok data := by simpa [scaleIfC2] using hp
    rcases h2 : scaleBandsAux d0.bands with e | bs
    · rw [scale_usgs_collection2, h2] at hp2
      simp at hp2
    · rw [scale_usgs_collection2, h2] at hp2
      have h3 : (⟨bs, d0.attrs, d0.time⟩ : Dataset) = data := by simpa using hp2
      rw [← h3]
      exact ⟨rfl, rfl⟩

theorem renameOrKeep_attrs (d : Dataset) : (renameOrKeep d).attrs = d.attrs := by
  unfold renameOrKeep renameDataset
  by_cases hg : ((["BS", "PV", "NPV", "UE"] : List String).all
      (fun k => (List.lookup k d.bands).isSome)) = true
  · simp [hg]
  · simp [hg]

theorem renameOrKeep_time (d : Dataset) : (renameOrKeep d).time = d.time := by
  unfold renameOrKeep renameDataset
  by_cases hg : ((["BS", "PV", "NPV", "UE"] : List String).all
      (fun k => (List.lookup k d.bands).isSome)) = true
  · simp [hg]
  · simp [hg]

theorem renameOrKeep_bands_snd (d : Dataset) :
    (renameOrKeep d).bands.map Prod.snd = d.bands.map Prod.snd := by
  unfold renameOrKeep renameDataset
  by_cases hg : ((["BS", "PV", "NPV", "UE"] : List String).all
      (fun k => (List.lookup k d.bands).isSome)) = true
  · simp [hg, map_snd_renamed]
  · simp [hg]

theorem zipWith_map_same {α β γ δ : Type} (f : α → β → γ) (g : δ → α) (h : δ → β)
    (l : List δ) :
    List.zipWith f (l.map g) (l.map h) = l.map (fun v => f (g v) (h v)) := by
  induction l with
  | nil => rfl
  | cons a t ih => simp [ih]

theorem map3_map3 {α β γ : Type} (f : β → γ) (g : α → β) (c : List (List (List α))) :
    map3 f (map3 g c) = map3 (fun v => f (g v)) c := by
  simp [map3, List.map_map, Function.comp_def]

theorem zip3With_map3_same {α β γ δ : Type} (f : α → β → γ) (g : δ → α) (h : δ → β)
    (c : List (List (List δ))) :
    zip3With f (map3 g c) (map3 h c) = map3 (fun v => f (g v) (h v)) c := by
  simp [zip3With, map3, zipWith_map_same]

/-- Closed form of a successful run of scale_and_clip_dataarray: the
masked overwrite of the cast affine image, cellwise. -/
theorem scale_and_clip_as_map3 (b : BandV) (sf off : ℚ) (cr : Option (ℚ × ℚ)) (nn : ℚ)
    (dt : String) (nv : AttrVal) (hl : List.lookup "nodata" b.attrs = some nv) :
    scale_and_clip_dataarray b sf off cr nn dt
      = Except.ok ⟨map3 (fun v => if decide (AttrVal.num v = nv) = true then castDtype dt nn
            else castDtype dt (v * sf + off)) b.data,
          setKey b.attrs "nodata" (AttrVal.num nn)⟩ := by
  simp only [scale_and_clip_dataarray, hl, map3_map3, zip3With_map3_same]

theorem lookup_mem {β : Type} (l : List (String × β)) (k : String) (b : β)
    (h : List.lookup k l = some b) : (k, b) ∈ l := by
  induction l with
  | nil => simp [List.lookup] at h
  | cons p rest ih =>
    rcases hb : (k == p.1) with _ | _
    · simp only [List.lookup, hb] at h
      exact List.mem_cons_of_mem _ (ih h)
    · simp only [List.lookup, hb] at h
      have hk : k = p.1 := by simpa using hb
      have hbv : b = p.2 := by simpa using h.symm
      rw [hk, hbv]
      exact List.mem_cons_self _ _

theorem getD_mem {α : Type} (l : List α) (i : ℕ) (d : α) (h : i < l.length) :
    l.getD i d ∈ l := by
  induction l generalizing i with
  | nil => exact absurd h (by simp)
  | cons a t ih =>
    cases i with
    | zero => exact List.mem_cons_self _ _
    | succ n => exact List.mem_cons_of_mem _ (ih n (by simpa using h))

theorem renameOrKeep_pos (d : Dataset)
    (h : ∀ k ∈ (["BS", "PV", "NPV", "UE"] : List String), k ∈ d.bands.map Prod.fst) :
    renameOrKeep d = ⟨d.bands.map (fun p => (renameKey p.1, p.2)), d.attrs, d.time⟩ := by
  have hg : ((["BS", "PV", "NPV", "UE"] : List String).all
      (fun k => (List.lookup k d.bands).isSome)) = true := by
    simp only [List.all_eq_true]
    intro k hk
    exact lookup_isSome_of_mem _ _ (h k hk)
  unfold renameOrKeep renameDataset
  rw [if_pos hg]

theorem renameOrKeep_neg (d : Dataset) (h : "BS" ∉ d.bands.map Prod.fst) :
    renameOrKeep d = d := by
  have hg : ((["BS", "PV", "NPV", "UE"] : List String).all
      (fun k => (List.lookup k d.bands).isSome)) = false := by
    simp [List.all_cons, lookup_eq_none_of_not_mem _ _ h]
  unfold renameOrKeep renameDataset
  rw [if_neg (by simp [hg])]

/-- Closed form of a successful run of compute: the renamed-or-kept cube
whose bands stack, for each band of the first unmixing result, the grids
that each per-timestep unmixing call returned for that band name, in
input time order, under the first result's attributes with crs copied
from the (preprocessed) input. -/
theorem compute_ok_explicit (unmix : Unmix) (rc : RC) (c2 tm : Bool) (ds data : Dataset)
    (crs : AttrVal) (m : ℕ)
    (hp : scaleIfC2 c2 (if tm then iselXY100 ds else ds) = Except.ok data)
    (hm : data.time.length = m + 1)
    (hcrs : List.lookup "crs" data.attrs = some crs)
    (hlook : ∀ nm ∈ (unmixAt unmix rc data 0).bands.map Prod.fst,
      ∀ i, i < data.time.length → (List.lookup nm (unmixAt unmix rc data i).bands).isSome) :
    FractionalCover.compute unmix ⟨rc, c2, tm⟩ ds
      = Except.ok (renameOrKeep
          ⟨(unmixAt unmix rc data 0).bands.map (fun p =>
              (p.1, ⟨((List.range data.time.length).map (fun i => unmixAt unmix rc data i)).map
                  (fun sl => dataOfBand sl p.1), p.2.attrs⟩)),
            setKey (unmixAt unmix rc data 0).attrs "crs" crs,
            ((List.range data.time.length).map (fun i => unmixAt unmix rc data i)).map
              SliceV.time⟩) := by
  have hslices : ((List.range data.time.length).map (fun i => unmixAt unmix rc data i))
      = unmixAt unmix rc data 0
        :: (List.range m).map (fun i => unmixAt unmix rc data (i + 1)) := by
    rw [hm, List.range_succ_eq_map]
    simp [Function.comp_def]
  have hmem : ∀ nm ∈ (unmixAt unmix rc data 0).bands.map Prod.fst,
      ∀ sl ∈ unmixAt unmix rc data 0
        :: (List.range m).map (fun i => unmixAt unmix rc data (i + 1)),
      (List.lookup nm sl.bands).isSome := by
    intro nm hnm sl hsl
    rw [← hslices] at hsl
    obtain ⟨i, hi, rfl⟩ := List.mem_map.mp hsl
    exact hlook nm hnm i (List.mem_range.mp hi)
  have hcat := concatTime_ok (unmixAt unmix rc data 0)
    ((List.range m).map (fun i => unmixAt unmix rc data (i + 1))) hmem
  rw [← hslices] at hcat
  simp only [unmixAt] at hcat hslices
  simp only [FractionalCover.compute, hp, hcat, hcrs, tryRename_eq, unmixAt]

theorem map_fst_keyed_fn {β γ : Type} (l : List (String × β)) (f : String → String)
    (G : String × β → γ) :
    (l.map (fun p => (f p.1, G p))).map Prod.fst = (l.map Prod.fst).map f := by
  induction l with
  | nil => rfl
  | cons p rest ih => simp [ih]

theorem renameKey_id_of_mem_lower (u : String)
    (h : u ∈ (["pv", "npv", "bs", "ue"] : List String)) : renameKey u = u := by
  fin_cases h <;> rfl

/-- C3 counterexample: on a cube with an empty time axis the loop body
never runs, so xr.concat receives an empty list and raises a ValueError;
line 65 sits outside the try/except, so compute propagates the error and
returns no cube at all, refuting the claim at N = 0. -/
theorem C3_zero_timesteps_counterexample :
    FractionalCover.compute unmix0 ⟨[], false, false⟩
        ⟨[("green", ⟨[], [("nodata", AttrVal.num (-999))]⟩)],
          [("crs", AttrVal.str "e")], []⟩
      = Except.error PyErr.valueError := rfl

/-- C3 (amended): for every at-least-one-timestep input cube and every
unmixing function returning, per slice, four bands named {PV, NPV, BS,
UE} or four bands named {pv, npv, bs, ue} (in a consistent order) and
carrying the slice's time coordinate, compute succeeds with a cube whose
time axis equals the input's (one slice per input time index, in input
order), whose bands are exactly the four lowercase names, each stacking
the grids the unmixing function returned for that band at each time
index; the rename attempt never propagates an error in either naming
case. -/
theorem C3_compute_shape_amended (unmix : Unmix) (rc : RC) (c2 tm : Bool)
    (ds data : Dataset) (U : List String) (crs : AttrVal) (m : ℕ)
    (hp : scaleIfC2 c2 (if tm then iselXY100 ds else ds) = Except.ok data)
    (hm : data.time.length = m + 1)
    (hcrs : List.lookup "crs" data.attrs = some crs)
    (hU : ∀ i, i < data.time.length → sliceBandNames (unmixAt unmix rc data i) = U)
    (htime : ∀ i, i < data.time.length →
      (unmixAt unmix rc data i).time = data.time.getD i 0)
    (hcase : U.Perm ["PV", "NPV", "BS", "UE"] ∨ U.Perm ["pv", "npv", "bs", "ue"]) :
    ∃ out, FractionalCover.compute unmix ⟨rc, c2, tm⟩ ds = Except.ok out ∧
      out.time = ds.time ∧
      bandNames out = U.map renameKey ∧
      (bandNames out).Perm ["pv", "npv", "bs", "ue"] ∧
      out.bands = (unmixAt unmix rc data 0).bands.map (fun p =>
        (renameKey p.1, ⟨((List.range data.time.length).map
            (fun i => unmixAt unmix rc data i)).map (fun sl => dataOfBand sl p.1),
          p.2.attrs⟩)) := by
  have hdtime : data.time = ds.time := by
    have h2 := (scaleIfC2_meta _ _ _ hp).1
    cases tm <;> simpa using h2
  have h0lt : 0 < data.time.length := by omega
  have hnames0 : (unmixAt unmix rc data 0).bands.map Prod.fst = U := hU 0 h0lt
  have hlook : ∀ nm ∈ (unmixAt unmix rc data 0).bands.map Prod.fst,
      ∀ i, i < data.time.length → (List.lookup nm (unmixAt unmix rc data i).bands).isSome := by
    intro nm hnm i hi
    refine lookup_isSome_of_mem _ _ ?_
    have h2 : (unmixAt unmix rc data i).bands.map Prod.fst = U := hU i hi
    rw [h2]
    rw [hnames0] at hnm
    exact hnm
  have hmain := compute_ok_explicit unmix rc c2 tm ds data crs m hp hm hcrs hlook
  have htime1 : ((List.range data.time.length).map (fun i => unmixAt unmix rc data i)).map
      SliceV.time = data.time := by
    rw [List.map_map]
    have h2 : ∀ i ∈ List.range data.time.length,
        (SliceV.time ∘ fun i => unmixAt unmix rc data i) i = data.time.getD i 0 := by
      intro i hi
      simpa using htime i (List.mem_range.mp hi)
    rw [List.map_congr_left h2]
    exact map_range_getD data.time 0
  set FC1 : Dataset := ⟨(unmixAt unmix rc data 0).bands.map (fun p =>
      (p.1, ⟨((List.range data.time.length).map (fun i => unmixAt unmix rc data i)).map
          (fun sl => dataOfBand sl p.1), p.2.attrs⟩)),
    setKey (unmixAt unmix rc data 0).attrs "crs" crs,
    ((List.range data.time.length).map (fun i => unmixAt unmix rc data i)).map
      SliceV.time⟩ with hFC1
  have hSbands : FC1.bands = (unmixAt unmix rc data 0).bands.map (fun p =>
      (p.1, ⟨((List.range data.time.length).map (fun i => unmixAt unmix rc data i)).map
          (fun sl => dataOfBand sl p.1), p.2.attrs⟩)) := by rw [hFC1]
  have hStime : FC1.time = ((List.range data.time.length).map
      (fun i => unmixAt unmix rc data i)).map SliceV.time := by rw [hFC1]
  have hnamesFC1 : FC1.bands.map Prod.fst = U := by
    rw [hSbands, map_fst_keyed]
    exact hnames0
  rcases hcase with hU4 | hL4
  · have hall : ∀ k ∈ (["BS", "PV", "NPV", "UE"] : List String),
        k ∈ FC1.bands.map Prod.fst := by
      intro k hk
      rw [hnamesFC1]
      exact hU4.mem_iff.mpr (by fin_cases hk <;> decide)
    have hro := renameOrKeep_pos FC1 hall
    rw [hro] at hmain
    refine ⟨_, hmain, ?_, ?_, ?_, ?_⟩
    · show FC1.time = ds.time
      rw [hStime, htime1]
      exact hdtime
    · show (FC1.bands.map (fun p => (renameKey p.1, p.2))).map Prod.fst = U.map renameKey
      rw [map_fst_renamed, hnamesFC1]
    · show ((FC1.bands.map (fun p => (renameKey p.1, p.2))).map Prod.fst).Perm
        ["pv", "npv", "bs", "ue"]
      rw [map_fst_renamed, hnamesFC1]
      have h2 := hU4.map renameKey
      simpa [renameKey] using h2
    · show FC1.bands.map (fun p => (renameKey p.1, p.2)) = _
      rw [hSbands, map_keyed_comp]
  · have hBS : "BS" ∉ FC1.bands.map Prod.fst := by
      rw [hnamesFC1]
      intro hmem
      exact absurd (hL4.mem_iff.mp hmem) (by decide)
    have hro := renameOrKeep_neg FC1 hBS
    rw [hro] at hmain
    have hpt : ∀ p ∈ (unmixAt unmix rc data 0).bands, renameKey p.1 = p.1 := by
      intro p hp2
      refine renameKey_id_of_mem_lower p.1 ?_
      refine hL4.mem_iff.mp ?_
      rw [← hnames0]
      exact List.mem_map_of_mem Prod.fst hp2
    refine ⟨_, hmain, ?_, ?_, ?_, ?_⟩
    · show FC1.time = ds.time
      rw [hStime, htime1]
      exact hdtime
    · show FC1.bands.map Prod.fst = U.map renameKey
      rw [hnamesFC1, renameKey_id_on_lower U (fun u hu => hL4.mem_iff.mp hu)]
    · show (FC1.bands.map Prod.fst).Perm ["pv", "npv", "bs", "ue"]
      rw [hnamesFC1]
      exact hL4
    · show FC1.bands = _
      rw [hSbands]
      exact map_keyed_rename_id _ _ hpt

/-- Witness for C3 on a one-band, one-timestep cube with a lowercase-name
unmixing stand-in. -/
theorem C3_compute_shape_amended_witness :
    ∃ out, FractionalCover.compute unmix0 ⟨[], false, false⟩
        ⟨[("green", ⟨[[[1]]], [("nodata", AttrVal.num (-999))]⟩)],
          [("crs", AttrVal.str "e")], [42]⟩ = Except.ok out ∧
      out.time = (⟨[("green", ⟨[[[1]]], [("nodata", AttrVal.num (-999))]⟩)],
          [("crs", AttrVal.str "e")], [42]⟩ : Dataset).time ∧
      bandNames out = (["pv", "npv", "bs", "ue"] : List String).map renameKey ∧
      (bandNames out).Perm ["pv", "npv", "bs", "ue"] ∧
      out.bands = (unmixAt unmix0 []
          ⟨[("green", ⟨[[[1]]], [("nodata", AttrVal.num (-999))]⟩)],
            [("crs", AttrVal.str "e")], [42]⟩ 0).bands.map (fun p =>
        (renameKey p.1, ⟨((List.range (⟨[("green", ⟨[[[1]]], [("nodata", AttrVal.num (-999))]⟩)],
              [("crs", AttrVal.str "e")], [42]⟩ : Dataset).time.length).map
            (fun i => unmixAt unmix0 []
              ⟨[("green", ⟨[[[1]]], [("nodata", AttrVal.num (-999))]⟩)],
                [("crs", AttrVal.str "e")], [42]⟩ i)).map (fun sl => dataOfBand sl p.1),
          p.2.attrs⟩)) :=
  C3_compute_shape_amended unmix0 [] false false
    ⟨[("green", ⟨[[[1]]], [("nodata", AttrVal.num (-999))]⟩)],
      [("crs", AttrVal.str "e")], [42]⟩
    ⟨[("green", ⟨[[[1]]], [("nodata", AttrVal.num (-999))]⟩)],
      [("crs", AttrVal.str "e")], [42]⟩
    ["pv", "npv", "bs", "ue"] (AttrVal.str "e") 0
    rfl rfl rfl (fun _ _ => rfl) (fun _ _ => rfl) (Or.inr (List.Perm.refl _))

/-- C8: compute's output carries the input cube's crs attribute, whether
or not normalization and test-mode subsampling are enabled: the cube
attributes survive isel and the keep_attrs scaling, and line 66 copies
the crs entry onto the concatenated result, which the rename step leaves
untouched. -/
theorem C8_crs_threading (unmix : Unmix) (rc : RC) (c2 tm : Bool)
    (ds data : Dataset) (crs : AttrVal) (m : ℕ)
    (hp : scaleIfC2 c2 (if tm then iselXY100 ds else ds) = Except.ok data)
    (hm : data.time.length = m + 1)
    (hcrs : List.lookup "crs" ds.attrs = some crs)
    (hlook : ∀ nm ∈ (unmixAt unmix rc data 0).bands.map Prod.fst,
      ∀ i, i < data.time.length → (List.lookup nm (unmixAt unmix rc data i).bands).isSome) :
    ∃ out, FractionalCover.compute unmix ⟨rc, c2, tm⟩ ds = Except.ok out ∧
      List.lookup "crs" out.attrs = some crs := by
  have hattrs : data.attrs = ds.attrs := by
    have h2 := (scaleIfC2_meta _ _ _ hp).2
    cases tm <;> simpa using h2
  have hcrs2 : List.lookup "crs" data.attrs = some crs := by
    rw [hattrs]
    exact hcrs
  have hmain := compute_ok_explicit unmix rc c2 tm ds data crs m hp hm hcrs2 hlook
  refine ⟨_, hmain, ?_⟩
  rw [renameOrKeep_attrs]
  exact lookup_setKey _ _ _

/-- Witness for C8 on a one-band, one-timestep cube. -/
theorem C8_crs_threading_witness :
    ∃ out, FractionalCover.compute unmix0 ⟨[], false, false⟩
        ⟨[("green", ⟨[[[1]]], [("nodata", AttrVal.num (-999))]⟩)],
          [("crs", AttrVal.str "e")], [42]⟩ = Except.ok out ∧
      List.lookup "crs" out.attrs = some (AttrVal.str "e") :=
  C8_crs_threading unmix0 [] false false
    ⟨[("green", ⟨[[[1]]], [("nodata", AttrVal.num (-999))]⟩)],
      [("crs", AttrVal.str "e")], [42]⟩
    ⟨[("green", ⟨[[[1]]], [("nodata", AttrVal.num (-999))]⟩)],
      [("crs", AttrVal.str "e")], [42]⟩
    (AttrVal.str "e") 0 rfl rfl rfl
    (by
      intro nm hnm i hi
      have h2 : nm ∈ (["pv", "npv", "bs", "ue"] : List String) := hnm
      fin_cases h2 <;> rfl)

theorem map_snd_keyed {β γ : Type} (l : List (String × β)) (G : String × β → γ) :
    (l.map (fun p => (p.1, G p))).map Prod.snd = l.map G := by
  induction l with
  | nil => rfl
  | cons p rest ih => simp [ih]

theorem gridUniform_take (g : Grid) (Y X : ℕ) (h : gridUniform g Y X) :
    gridUniform ((g.take 100).map (fun r => r.take 100)) (min 100 Y) (min 100 X) := by
  unfold gridUniform at h ⊢
  rw [List.map_map]
  have h2 : (List.length ∘ fun r : List ℚ => List.take 100 r)
      = (fun r : List ℚ => min 100 r.length) := by
    funext r
    simp [List.length_take]
  rw [h2]
  have h3 : g.map (fun r : List ℚ => min 100 r.length)
      = (g.map List.length).map (fun n => min 100 n) := by
    rw [List.map_map]
    rfl
  rw [List.map_take, h3, h, List.map_replicate, List.take_replicate]

theorem map3_shape_mem (F : ℚ → ℚ) (c : Cells) (g : Grid) (hg : g ∈ map3 F c) :
    ∃ g0 ∈ c, g.map List.length = g0.map List.length := by
  unfold map3 at hg
  obtain ⟨g0, hg0, rfl⟩ := List.mem_map.mp hg
  refine ⟨g0, hg0, ?_⟩
  simp [List.map_map, Function.comp_def]

theorem scaleBandsAux_mem (bands bands2 : List (String × BandV))
    (h : scaleBandsAux bands = .ok bands2) :
    ∀ q ∈ bands2, ∃ p ∈ bands, ∃ F : ℚ → ℚ, q.2.data = map3 F p.2.data := by
  induction bands generalizing bands2 with
  | nil =>
    have h2 : ([] : List (String × BandV)) = bands2 := by simpa [scaleBandsAux] using h
    rw [← h2]
    intro q hq
    simp at hq
  | cons pb rest ih =>
    obtain ⟨nm, b⟩ := pb
    rcases hs : scale_and_clip_dataarray b (275/1000) (-2000) (some (0, 10000)) (-999) "int16"
      with e | b2
    · simp [scaleBandsAux, hs] at h
    · rcases hr : scaleBandsAux rest with e2 | r
      · simp [scaleBandsAux, hs, hr] at h
      · simp only [scaleBandsAux, hs, hr, Except.ok.injEq] at h
        rw [← h]
        intro q hq
        rcases List.mem_cons.mp hq with hq1 | hq2
        · rcases hl : List.lookup "nodata" b.attrs with _ | nv
          · simp [scale_and_clip_dataarray, hl] at hs
          · rw [scale_and_clip_as_map3 b (275/1000) (-2000) (some (0, 10000)) (-999)
              "int16" nv hl] at hs
            have hb2 : b2 = ⟨map3 (fun v => if decide (AttrVal.num v = nv) = true
                then castDtype "int16" (-999)
                else castDtype "int16" (v * (275/1000) + -2000)) b.data,
                setKey b.attrs "nodata" (AttrVal.num (-999))⟩ := by
              have := hs.symm
              simpa using this
            refine ⟨(nm, b), List.mem_cons_self _ _,
              (fun v => if decide (AttrVal.num v = nv) = true then castDtype "int16" (-999)
                else castDtype "int16" (v * (275/1000) + -2000)), ?_⟩
            rw [hq1, hb2]
        · obtain ⟨p, hp2, F, hF⟩ := ih r hr q hq2
          exact ⟨p, List.mem_cons_of_mem _ hp2, F, hF⟩

theorem preprocess_shape (c2 tm : Bool) (ds data : Dataset) (Y X : ℕ)
    (hp : scaleIfC2 c2 (if tm then iselXY100 ds else ds) = Except.ok data)
    (hds : dsUniform ds Y X)
    (hlen : ∀ p ∈ ds.bands, p.2.data.length = ds.time.length) :
    dsUniform data (if tm then min 100 Y else Y) (if tm then min 100 X else X) ∧
    (∀ p ∈ data.bands, p.2.data.length = ds.time.length) ∧
    data.time = ds.time := by
  have hd0u : dsUniform (if tm then iselXY100 ds else ds)
      (if tm then min 100 Y else Y) (if tm then min 100 X else X) := by
    cases tm with
    | false => simpa using hds
    | true =>
      simp only [if_true]
      intro p hp2 g hg
      obtain ⟨q, hq, rfl⟩ := List.mem_map.mp hp2
      obtain ⟨g0, hg0, rfl⟩ := List.mem_map.mp hg
      exact gridUniform_take g0 Y X (hds q hq g0 hg0)
  have hd0len : ∀ p ∈ (if tm then iselXY100 ds else ds).bands,
      p.2.data.length = ds.time.length := by
    cases tm with
    | false => simpa using hlen
    | true =>
      simp only [if_true]
      intro p hp2
      obtain ⟨q, hq, rfl⟩ := List.mem_map.mp hp2
      simpa using hlen q hq
  have hd0time : (if tm then iselXY100 ds else ds).time = ds.time := by
    cases tm <;> rfl
  cases c2 with
  | false =>
    have h2 : (if tm then iselXY100 ds else ds) = data := by simpa [scaleIfC2] using hp
    rw [← h2]
    exact ⟨hd0u, hd0len, hd0time⟩
  | true =>
    have hp2 : scale_usgs_collection2 (if tm then iselXY100 ds else ds) = .ok data := by
      simpa [scaleIfC2] using hp
    rcases h2 : scaleBandsAux (if tm then iselXY100 ds else ds).bands with e | bs
    · rw [scale_usgs_collection2, h2] at hp2
      simp at hp2
    · rw [scale_usgs_collection2, h2] at hp2
      have h3 : (⟨bs, (if tm then iselXY100 ds else ds).attrs,
          (if tm then iselXY100 ds else ds).time⟩ : Dataset) = data := by simpa using hp2
      rw [← h3]
      refine ⟨?_, ?_, hd0time⟩
      · intro q hq g hg
        obtain ⟨p, hp3, F, hF⟩ := scaleBandsAux_mem _ _ h2 q hq
        rw [hF] at hg
        obtain ⟨g0, hg0, hsh⟩ := map3_shape_mem F _ g hg
        unfold gridUniform
        rw [hsh]
        exact hd0u p hp3 g0 hg0
      · intro q hq
        obtain ⟨p, hp3, F, hF⟩ := scaleBandsAux_mem _ _ h2 q hq
        show q.2.data.length = ds.time.length
        rw [hF]
        unfold map3
        rw [List.length_map]
        exact hd0len p hp3

/-- C9: with test_mode enabled, compute hands the unmixing function
slices restricted to the first min(100, extent) cells along each spatial
axis, and — provided the unmixing function preserves the spatial extent
of the slices it receives — the computed cube has extent min(100,
original) along each spatial axis; with test_mode disabled the full
extent flows through unchanged.  The if-expressions instantiate to
min 100 Y / min 100 X when tm is true and to Y / X when it is false. -/
theorem C9_test_mode_extent (unmix : Unmix) (rc : RC) (c2 tm : Bool)
    (ds data : Dataset) (crs : AttrVal) (m : ℕ) (Y X : ℕ)
    (hp : scaleIfC2 c2 (if tm then iselXY100 ds else ds) = Except.ok data)
    (hm : data.time.length = m + 1)
    (hcrs : List.lookup "crs" data.attrs = some crs)
    (hlook : ∀ nm ∈ (unmixAt unmix rc data 0).bands.map Prod.fst,
      ∀ i, i < data.time.length → (List.lookup nm (unmixAt unmix rc data i).bands).isSome)
    (hds : dsUniform ds Y X)
    (hlen : ∀ p ∈ ds.bands, p.2.data.length = ds.time.length) :
    (∀ i, i < data.time.length → sliceUniform (sliceAt data i)
      (if tm then min 100 Y else Y) (if tm then min 100 X else X)) ∧
    ((∀ i, i < data.time.length → sliceUniform (unmixAt unmix rc data i)
        (if tm then min 100 Y else Y) (if tm then min 100 X else X)) →
      ∃ out, FractionalCover.compute unmix ⟨rc, c2, tm⟩ ds = Except.ok out ∧
        dsUniform out (if tm then min 100 Y else Y) (if tm then min 100 X else X)) := by
  obtain ⟨hdu, hdlen, hdtime⟩ := preprocess_shape c2 tm ds data Y X hp hds hlen
  constructor
  · intro i hi p hp2
    obtain ⟨q, hq, rfl⟩ := List.mem_map.mp hp2
    refine hdu q hq _ (getD_mem _ _ _ ?_)
    rw [hdlen q hq]
    have h2 := congrArg List.length hdtime
    rw [← h2]
    exact hi
  · intro hu
    have hmain := compute_ok_explicit unmix rc c2 tm ds data crs m hp hm hcrs hlook
    refine ⟨_, hmain, ?_⟩
    intro p hp2 g hg
    have hsnd := List.mem_map_of_mem Prod.snd hp2
    rw [renameOrKeep_bands_snd, map_snd_keyed] at hsnd
    obtain ⟨q, hq, hqe⟩ := List.mem_map.mp hsnd
    rw [← hqe] at hg
    have hg2 : g ∈ ((List.range data.time.length).map
        (fun i => unmixAt unmix rc data i)).map (fun sl => dataOfBand sl q.1) := hg
    obtain ⟨sl, hsl, rfl⟩ := List.mem_map.mp hg2
    obtain ⟨i, hi, rfl⟩ := List.mem_map.mp hsl
    have hi2 : i < data.time.length := List.mem_range.mp hi
    have hq1 : q.1 ∈ (unmixAt unmix rc data 0).bands.map Prod.fst :=
      List.mem_map_of_mem Prod.fst hq
    have hsome := hlook q.1 hq1 i hi2
    rcases hlb : List.lookup q.1 (unmixAt unmix rc data i).bands with _ | b
    · rw [hlb] at hsome
      simp at hsome
    · have hgu := hu i hi2 (q.1, b) (lookup_mem _ _ _ hlb)
      unfold dataOfBand
      rw [hlb]
      exact hgu

/-- Witness for C9 with test_mode enabled on a one-band, one-timestep,
1-by-1 cube: the extent bound min 100 1 = 1 along both axes. -/
theorem C9_test_mode_extent_witness :
    (∀ i, i < (iselXY100 ⟨[("green", ⟨[[[1]]], [("nodata", AttrVal.num (-999))]⟩)],
        [("crs", AttrVal.str "e")], [42]⟩).time.length →
      sliceUniform (sliceAt (iselXY100 ⟨[("green", ⟨[[[1]]], [("nodata", AttrVal.num (-999))]⟩)],
          [("crs", AttrVal.str "e")], [42]⟩) i)
        (if true then min 100 1 else 1) (if true then min 100 1 else 1)) ∧
    ((∀ i, i < (iselXY100 ⟨[("green", ⟨[[[1]]], [("nodata", AttrVal.num (-999))]⟩)],
        [("crs", AttrVal.str "e")], [42]⟩).time.length →
      sliceUniform (unmixAt unmix0 []
          (iselXY100 ⟨[("green", ⟨[[[1]]], [("nodata", AttrVal.num (-999))]⟩)],
            [("crs", AttrVal.str "e")], [42]⟩) i)
        (if true then min 100 1 else 1) (if true then min 100 1 else 1)) →
      ∃ out, FractionalCover.compute unmix0 ⟨[], false, true⟩
          ⟨[("green", ⟨[[[1]]], [("nodata", AttrVal.num (-999))]⟩)],
            [("crs", AttrVal.str "e")], [42]⟩ = Except.ok out ∧
        dsUniform out (if true then min 100 1 else 1) (if true then min 100 1 else 1)) :=
  C9_test_mode_extent unmix0 [] false true
    ⟨[("green", ⟨[[[1]]], [("nodata", AttrVal.num (-999))]⟩)],
      [("crs", AttrVal.str "e")], [42]⟩
    (iselXY100 ⟨[("green", ⟨[[[1]]], [("nodata", AttrVal.num (-999))]⟩)],
      [("crs", AttrVal.str "e")], [42]⟩)
    (AttrVal.str "e") 0 1 1
    rfl rfl rfl
    (by
      intro nm hnm i hi
      have h2 : nm ∈ (["pv", "npv", "bs", "ue"] : List String) := hnm
      fin_cases h2 <;> rfl)
    (by
      intro p hp g hg
      fin_cases hp
      have hg2 : g ∈ ([[[(1 : ℚ)]]] : Cells) := hg
      fin_cases hg2
      exact (rfl : (([[(1 : ℚ)]] : Grid).map List.length) = List.replicate 1 1))
    (by
      intro p hp
      fin_cases hp
      rfl)

/-- C4 counterexample: under the spec's (slope, intercept) reading of a
coefficient pair, the default pair [0, 1] installed by the constructor is
not the identity: it recalibrates the band value 5 to 0 * 5 + 1 = 1. -/
theorem C4_default_pair_counterexample :
    List.lookup "green" (FractionalCover.init none false false).regression_coefficients
      = some (0, 1) ∧
    recalibrate (0, 1) 5 = 1 ∧ ((1 : ℚ)) ≠ 5 :=
  ⟨rfl, by norm_num [recalibrate], by norm_num⟩

/-- C4 (amended): when no coefficients are supplied the constructor
installs the pair [0, 1] for each of the five required bands; that pair
is the identity recalibration only when read with the slope as the second
component and the intercept as the first (v * p.2 + p.1 = v), whereas
under the spec-modelled (slope, intercept) order it maps every value
to 1. -/
theorem C4_default_pair_amended :
    List.lookup "green" (FractionalCover.init none false false).regression_coefficients
      = some (0, 1) ∧
    List.lookup "red" (FractionalCover.init none false false).regression_coefficients
      = some (0, 1) ∧
    List.lookup "nir" (FractionalCover.init none false false).regression_coefficients
      = some (0, 1) ∧
    List.lookup "swir1" (FractionalCover.init none false false).regression_coefficients
      = some (0, 1) ∧
    List.lookup "swir2" (FractionalCover.init none false false).regression_coefficients
      = some (0, 1) ∧
    (∀ v : ℚ, v * (((0 : ℚ), (1 : ℚ))).2 + (((0 : ℚ), (1 : ℚ))).1 = v) ∧
    (∀ v : ℚ, recalibrate ((0 : ℚ), (1 : ℚ)) v = 1) :=
  ⟨rfl, rfl, rfl, rfl, rfl,
   fun v => by norm_num,
   fun v => by norm_num [recalibrate]⟩

/-- C10: FakeFractionalCover.compute never consults test_mode: with equal
coefficients and scaling flag, the test_mode=true and test_mode=false
instances return identical results on every input; moreover (scaling
off) the output reuses the raw red and green bands unchanged, so the full
input spatial extent is retained even with test_mode enabled. -/
theorem C10_fake_ignores_test_mode (rc : RC) (c2 : Bool) (ds : Dataset) (rb gb : BandV)
    (hr : List.lookup "red" ds.bands = some rb)
    (hg : List.lookup "green" ds.bands = some gb) :
    FakeFractionalCover.compute ⟨rc, c2, true⟩ ds
      = FakeFractionalCover.compute ⟨rc, c2, false⟩ ds ∧
    FakeFractionalCover.compute ⟨rc, false, true⟩ ds
      = Except.ok ⟨[("pv", rb), ("bs", rb), ("npv", gb)], ds.attrs, ds.time⟩ := by
  refine ⟨rfl, ?_⟩
  simp only [FakeFractionalCover.compute, scaleIfC2, Bool.false_eq_true, if_false, hr, hg]

/-- Witness for C10 on a two-band dataset. -/
theorem C10_fake_ignores_test_mode_witness :
    FakeFractionalCover.compute ⟨[], false, true⟩
        ⟨[("red", ⟨[[[1]]], []⟩), ("green", ⟨[[[2]]], []⟩)], [("crs", AttrVal.str "e")], [0]⟩
      = FakeFractionalCover.compute ⟨[], false, false⟩
        ⟨[("red", ⟨[[[1]]], []⟩), ("green", ⟨[[[2]]], []⟩)], [("crs", AttrVal.str "e")], [0]⟩ ∧
    FakeFractionalCover.compute ⟨[], false, true⟩
        ⟨[("red", ⟨[[[1]]], []⟩), ("green", ⟨[[[2]]], []⟩)], [("crs", AttrVal.str "e")], [0]⟩
      = Except.ok ⟨[("pv", ⟨[[[1]]], []⟩), ("bs", ⟨[[[1]]], []⟩), ("npv", ⟨[[[2]]], []⟩)],
          [("crs", AttrVal.str "e")], [0]⟩ :=
  C10_fake_ignores_test_mode [] false
    ⟨[("red", ⟨[[[1]]], []⟩), ("green", ⟨[[[2]]], []⟩)], [("crs", AttrVal.str "e")], [0]⟩
    ⟨[[[1]]], []⟩ ⟨[[[2]]], []⟩ rfl rfl

/-- C7 counterexample: on a dataset carrying the five reflectance bands,
the fake variant returns the three bands pv, bs, npv only; the ue band of
the contract is absent from the output. -/
theorem C7_fake_missing_ue_counterexample :
    FakeFractionalCover.compute ⟨[], false, false⟩
        ⟨[("green", ⟨[[[2]]], []⟩), ("red", ⟨[[[1]]], []⟩), ("nir", ⟨[[[3]]], []⟩),
          ("swir1", ⟨[[[4]]], []⟩), ("swir2", ⟨[[[6]]], []⟩)], [], [0]⟩
      = Except.ok ⟨[("pv", ⟨[[[1]]], []⟩), ("bs", ⟨[[[1]]], []⟩), ("npv", ⟨[[[2]]], []⟩)],
          [], [0]⟩ ∧
    "ue" ∉ (([("pv", (⟨[[[1]]], []⟩ : BandV)), ("bs", ⟨[[[1]]], []⟩),
        ("npv", ⟨[[[2]]], []⟩)]).map Prod.fst) := by
  refine ⟨rfl, by simp⟩

/-- C7 (amended): the fake variant returns exactly the three bands pv, bs
and npv — pv and bs standing in as the (possibly normalized) red band and
npv as the green band — omits ue, and applies the collection-2
normalization to the input first whenever c2_scaling is enabled. -/
theorem C7_fake_three_bands (rc : RC) (c2 tm : Bool) (ds data : Dataset) (rb gb : BandV)
    (hp : scaleIfC2 c2 ds = Except.ok data)
    (hr : List.lookup "red" data.bands = some rb)
    (hg : List.lookup "green" data.bands = some gb) :
    FakeFractionalCover.compute ⟨rc, c2, tm⟩ ds
      = Except.ok ⟨[("pv", rb), ("bs", rb), ("npv", gb)], data.attrs, data.time⟩ ∧
    "ue" ∉ (([("pv", rb), ("bs", rb), ("npv", gb)] : List (String × BandV)).map Prod.fst) := by
  refine ⟨?_, by simp⟩
  simp only [FakeFractionalCover.compute, hp, hr, hg]

/-- Witness for C7 with scaling disabled on a two-band dataset. -/
theorem C7_fake_three_bands_witness :
    FakeFractionalCover.compute ⟨[], false, false⟩
        ⟨[("red", ⟨[[[7]]], []⟩), ("green", ⟨[[[8]]], []⟩)], [], [0]⟩
      = Except.ok ⟨[("pv", ⟨[[[7]]], []⟩), ("bs", ⟨[[[7]]], []⟩), ("npv", ⟨[[[8]]], []⟩)],
          [], [0]⟩ ∧
    "ue" ∉ (([("pv", (⟨[[[7]]], []⟩ : BandV)), ("bs", ⟨[[[7]]], []⟩),
        ("npv", ⟨[[[8]]], []⟩)]).map Prod.fst) :=
  C7_fake_three_bands [] false false
    ⟨[("red", ⟨[[[7]]], []⟩), ("green", ⟨[[[8]]], []⟩)], [], [0]⟩
    ⟨[("red", ⟨[[[7]]], []⟩), ("green", ⟨[[[8]]], []⟩)], [], [0]⟩
    ⟨[[[7]]], []⟩ ⟨[[[8]]], []⟩ rfl rfl rfl

end FCModel
